import Mathlib

/-!
Verification development for the SubSnap YUV→RGB conversion pipeline.

This file gives a shallow embedding, in Lean, of the parts of the Rust
sources that the specification talks about:

* `src/converters/manual_converter.rs` — the reference ("manual") per-pixel
  BT.601-style converter;
* `src/converters/ffmpeg_converter.rs`, `src/converters/opencv_converter.rs`,
  `src/converters/yuvutils_converter.rs` — the CPU converters that delegate
  the pixel math to external libraries (the external calls are modelled as
  oracle parameters, their Rust type signatures constrain what they may do);
* `src/converters/wgpu_converter.rs` — the GPU engine
  (`GpuImageProcessor::convert_yuv420p_to_rgb`, `process_batch`,
  `create_buffers`), the batch pool (`WgpuBatchPool`) and the single-frame
  wrapper (`WgpuBatchConverter::convert`); the device itself (kernel
  execution and buffer readback contents) is modelled as an oracle giving
  the bytes observed when mapping the read buffer;
* `src/frame_extraction.rs` — the streaming extraction loop
  (`extract_frames_streaming`), with the decoder modelled as a list of
  packets, each packet decoding to a list of frame timestamps, and the
  bounded channel modelled by the number of sends that succeed before the
  receiving end is closed (once a tokio mpsc receiver is dropped, every
  later send fails).

Modelling conventions:

* Rust `u8`/`u32`/`u64`/`usize` values are `Nat`; wrap-around is written
  explicitly with `% 2 ^ 32` at the one place the source can overflow a
  `u32` (the per-frame RGBA footprint `width * height * 4`).
* Rust `f32`/`f64` arithmetic is modelled by exact rational arithmetic
  (`Rat`).  All concrete inputs used in the theorems below are far from
  any rounding boundary of the source's single/double precision
  evaluation, so the rational value and the floating-point value truncate
  to the same integers there.
* A Rust panic (index out of range, integer division by zero, `unwrap` of
  `None`) is modelled by `Option.none` wherever a claim depends on it.
  List indexing in the manual converter is written with `List.getD`; every
  theorem about it carries the validity hypotheses (4:2:0 frame with even
  dimensions and sufficient data length) under which the source indexing
  is in bounds, so the default is never exercised.
* Fallible Rust functions returning `anyhow::Result` become
  `Except String`.
-/

namespace SubSnap

/-- Model of `ffmpeg_next::util::format::Pixel` restricted to the
distinctions the sources make: `YUV420P` versus anything else. -/
inductive PixelFormat where
  | yuv420p
  | rgb24
  | nv12
  | other
deriving DecidableEq, Repr

/-- Model of `FrameData` (src/converter.rs / src/converters/mod.rs):
`frame_number: u32, width: u32, height: u32, data: Vec<u8>, format: Pixel`.
Bytes are `Nat`s; real frames have entries `< 256` but no claim needs it. -/
structure FrameData where
  frameNumber : Nat
  width : Nat
  height : Nat
  data : List Nat
  format : PixelFormat
deriving DecidableEq, Repr

/-! ## The manual (reference) converter, src/converters/manual_converter.rs -/

/-- Rust `f32::clamp(lo, hi)`: `if self < min { min } else if self > max
{ max } else { self }`, over the rational model of `f32`. -/
def rustClamp (x lo hi : Rat) : Rat :=
  if x < lo then lo else if x > hi then hi else x

/-- Rust `as u8` applied to an `f32` already clamped to `[0, 255]`:
truncation toward zero, which on nonnegative values is the floor. -/
def asU8 (x : Rat) : Nat := (Int.floor x).toNat

/-- The per-pixel transform of `ManualConverter::convert`
(manual_converter.rs lines 44–51): given the `Y`, `U`, `V` samples, produce
`(r, g, b)` with
`r = clamp(Y + 1.402*(V-128))`,
`g = clamp(Y - 0.344136*(U-128) - 0.714136*(V-128))`,
`b = clamp(Y + 1.772*(U-128))`, each truncated to a byte. -/
def manualPixel (yv uv vv : Nat) : Nat × Nat × Nat :=
  let y : Rat := (yv : Rat)
  let u : Rat := (uv : Rat) - 128
  let v : Rat := (vv : Rat) - 128
  ( asU8 (rustClamp (y + 1.402 * v) 0 255)
  , asU8 (rustClamp (y - 0.344136 * u - 0.714136 * v) 0 255)
  , asU8 (rustClamp (y + 1.772 * u) 0 255) )

/-- The three writes `rgb_data[rgb_idx] = r; … + 1] = g; … + 2] = b`
(manual_converter.rs lines 54–56). `List.set` is a no-op out of bounds; in
every use below the indices are in bounds. -/
def writeRGB (l : List Nat) (idx r g b : Nat) : List Nat :=
  ((l.set idx r).set (idx + 1) g).set (idx + 2) b

/-- One iteration of the inner `for x in 0..width` loop of
`ManualConverter::convert` (manual_converter.rs lines 40–57): fetch the
samples at `y_idx = y*width + x` and
`uv_idx = (y/2)*(width/2) + x/2`, convert, and store at
`rgb_idx = (y*width + x) * 3`. -/
def manualStep (w : Nat) (yP uP vP : List Nat) (y : Nat)
    (acc : List Nat) (x : Nat) : List Nat :=
  let yIdx := y * w + x
  let uvIdx := (y / 2) * (w / 2) + x / 2
  let rgb := manualPixel (yP.getD yIdx 0) (uP.getD uvIdx 0) (vP.getD uvIdx 0)
  writeRGB acc ((y * w + x) * 3) rgb.1 rgb.2.1 rgb.2.2

/-- The inner `for x in 0..width` loop for one row `y`. -/
def manualRow (w : Nat) (yP uP vP : List Nat) (y : Nat) (l : List Nat) :
    List Nat :=
  (List.range w).foldl (manualStep w yP uP vP y) l

/-- The full double loop of `ManualConverter::convert` over
`rgb_data = vec![0u8; width*height*3]`. -/
def manualBody (w h : Nat) (yP uP vP : List Nat) : List Nat :=
  (List.range h).foldl (fun acc y => manualRow w yP uP vP y acc)
    (List.replicate (w * h * 3) 0)

/-- `ManualConverter::convert` (manual_converter.rs lines 18–61): reject a
`pixel_format` other than `YUV420P`, reject data shorter than
`y_size + 2*uv_size`, then slice the three planes and run the double loop. -/
def manualConvert (f : FrameData) : Except String (List Nat) :=
  if f.format ≠ PixelFormat.yuv420p then
    .error "Manual converter only supports YUV420P format"
  else
    let w := f.width
    let h := f.height
    let ySize := w * h
    let uvSize := ySize / 4
    if f.data.length < ySize + 2 * uvSize then .error "Invalid YUV data size"
    else
      .ok (manualBody w h (f.data.take ySize)
        ((f.data.drop ySize).take uvSize)
        ((f.data.drop (ySize + uvSize)).take uvSize))

/-- The byte the manual converter stores at flat output offset `j`:
decompose `j` into pixel `p = j / 3` (so `y = p / w`, `x = p % w`) and
channel `c = j % 3`. -/
def outByte (w : Nat) (yP uP vP : List Nat) (j : Nat) : Nat :=
  let p := j / 3
  let c := j % 3
  let y := p / w
  let x := p % w
  let uvIdx := (y / 2) * (w / 2) + x / 2
  let rgb := manualPixel (yP.getD (y * w + x) 0) (uP.getD uvIdx 0)
    (vP.getD uvIdx 0)
  if c = 0 then rgb.1 else if c = 1 then rgb.2.1 else rgb.2.2

/-! ### Characterizing the manual converter's output -/

lemma length_writeRGB (l : List Nat) (idx r g b : Nat) :
    (writeRGB l idx r g b).length = l.length := by
  simp [writeRGB]

lemma getD_set (l : List Nat) (i j a : Nat) :
    (l.set i a).getD j 0 = if i = j ∧ j < l.length then a else l.getD j 0 := by
  simp only [List.getD, List.getElem?_set]
  by_cases hij : i = j
  · subst hij
    by_cases hi : i < l.length
    · simp [hi]
    · have hnone : l[i]? = none := List.getElem?_eq_none_iff.mpr (by omega)
      simp [List.getElem?_set, hi, hnone]
  · simp [hij]

lemma getD_writeRGB (l : List Nat) (idx r g b j : Nat) :
    (writeRGB l idx r g b).getD j 0 =
      if idx = j ∧ j < l.length then r
      else if idx + 1 = j ∧ j < l.length then g
      else if idx + 2 = j ∧ j < l.length then b
      else l.getD j 0 := by
  unfold writeRGB
  rw [getD_set, getD_set, getD_set]
  simp only [List.length_set]
  rcases Nat.lt_or_ge j l.length with hj | hj
  · by_cases h2 : idx + 2 = j
    · subst h2
      have h0 : ¬ idx = idx + 2 := by omega
      have h1 : ¬ idx + 1 = idx + 2 := by omega
      simp [hj, h0, h1]
    · by_cases h1 : idx + 1 = j
      · subst h1
        have h0 : ¬ idx = idx + 1 := by omega
        simp [hj, h0, h2]
      · by_cases h0 : idx = j
        · subst h0
          simp [hj, h1, h2]
        · simp [hj, h0, h1, h2]
  · have : ¬ j < l.length := Nat.not_lt.mpr hj
    simp [this]

lemma length_foldl_manualStep (w : Nat) (yP uP vP : List Nat) (y : Nat)
    (xs : List Nat) (l : List Nat) :
    (xs.foldl (manualStep w yP uP vP y) l).length = l.length := by
  induction xs generalizing l with
  | nil => rfl
  | cons x xs ih =>
    rw [List.foldl_cons, ih]
    simp [manualStep, length_writeRGB]

lemma length_manualRow (w : Nat) (yP uP vP : List Nat) (y : Nat)
    (l : List Nat) : (manualRow w yP uP vP y l).length = l.length :=
  length_foldl_manualStep w yP uP vP y (List.range w) l

lemma outByte_decode (w y x c : Nat) (hx : x < w) (hc : c < 3)
    (yP uP vP : List Nat) :
    outByte w yP uP vP ((y * w + x) * 3 + c) =
      (fun rgb => if c = 0 then rgb.1 else if c = 1 then rgb.2.1 else rgb.2.2)
        (manualPixel (yP.getD (y * w + x) 0)
          (uP.getD ((y / 2) * (w / 2) + x / 2) 0)
          (vP.getD ((y / 2) * (w / 2) + x / 2) 0)) := by
  have hw : 0 < w := by omega
  have hdiv3 : ((y * w + x) * 3 + c) / 3 = y * w + x := by omega
  have hmod3 : ((y * w + x) * 3 + c) % 3 = c := by omega
  have hdivw : (y * w + x) / w = y := by
    have hyw : y * w + x = w * y + x := by ring
    rw [hyw, Nat.mul_add_div hw, Nat.div_eq_of_lt hx]
    omega
  have hmodw : (y * w + x) % w = x := by
    have hyw : y * w + x = w * y + x := by ring
    rw [hyw, Nat.mul_add_mod, Nat.mod_eq_of_lt hx]
  simp only [outByte, hdiv3, hmod3, hdivw, hmodw]

/-- Effect of the inner loop prefix `for x in 0..k` of one row `y`: offsets
in the window `[y*w*3, y*w*3 + 3k)` hold the converted bytes, everything
else is untouched. -/
lemma manualRow_prefix_getD (w y : Nat) (yP uP vP : List Nat) (k : Nat)
    (hk : k ≤ w) (l : List Nat) (j : Nat) :
    ((List.range k).foldl (manualStep w yP uP vP y) l).getD j 0 =
      if y * w * 3 ≤ j ∧ j < y * w * 3 + k * 3 ∧ j < l.length
      then outByte w yP uP vP j
      else l.getD j 0 := by
  induction k with
  | zero =>
    simp only [List.range_zero, List.foldl_nil]
    rw [if_neg (by omega)]
  | succ k ih =>
    have hk' : k ≤ w := Nat.le_of_succ_le hk
    have hxk : k < w := hk
    rw [List.range_succ, List.foldl_append, List.foldl_cons, List.foldl_nil]
    set A := (List.range k).foldl (manualStep w yP uP vP y) l with hA
    have hAlen : A.length = l.length := length_foldl_manualStep _ _ _ _ _ _ _
    show (manualStep w yP uP vP y A k).getD j 0 = _
    simp only [manualStep]
    rw [getD_writeRGB, hAlen]
    by_cases hnew : y * w * 3 + k * 3 ≤ j ∧ j < y * w * 3 + k * 3 + 3 ∧
        j < l.length
    · -- `j` is one of the three offsets written by step `x = k`
      obtain ⟨h1, h2, h3⟩ := hnew
      obtain ⟨c, hc3, rfl⟩ : ∃ c, c < 3 ∧ j = (y * w + k) * 3 + c :=
        ⟨j - (y * w + k) * 3, by omega, by omega⟩
      have hout := outByte_decode w y k c hxk hc3 yP uP vP
      interval_cases c
      · rw [if_pos ⟨by omega, by omega⟩, if_pos (by omega)]
        simpa using hout.symm
      · rw [if_neg (by omega), if_pos ⟨by omega, by omega⟩, if_pos (by omega)]
        simpa using hout.symm
      · rw [if_neg (by omega), if_neg (by omega),
          if_pos ⟨by omega, by omega⟩, if_pos (by omega)]
        simpa using hout.symm
    · -- `j` is not among the three offsets written by step `x = k`
      rw [if_neg (by omega), if_neg (by omega), if_neg (by omega), ih hk']
      by_cases hold : y * w * 3 ≤ j ∧ j < y * w * 3 + k * 3 ∧ j < l.length
      · rw [if_pos hold, if_pos (by omega)]
      · rw [if_neg hold, if_neg (by omega)]

lemma length_manualRows (w : Nat) (yP uP vP : List Nat) (ys : List Nat)
    (l : List Nat) :
    (ys.foldl (fun acc y => manualRow w yP uP vP y acc) l).length =
      l.length := by
  induction ys generalizing l with
  | nil => rfl
  | cons y ys ih => rw [List.foldl_cons, ih, length_manualRow]

/-- Effect of the outer loop prefix `for y in 0..k`: offsets below `k*w*3`
hold the converted bytes, the rest still hold the initial zero. -/
lemma manualRows_prefix_getD (w h : Nat) (yP uP vP : List Nat) (k : Nat)
    (hk : k ≤ h) (j : Nat) (hj : j < w * h * 3) :
    ((List.range k).foldl (fun acc y => manualRow w yP uP vP y acc)
      (List.replicate (w * h * 3) 0)).getD j 0 =
      if j < k * w * 3 then outByte w yP uP vP j else 0 := by
  induction k with
  | zero =>
    simp only [List.range_zero, List.foldl_nil, Nat.zero_mul]
    rw [if_neg (by omega)]
    simp [List.getD, List.getElem?_replicate, hj]
  | succ k ih =>
    have hk' : k ≤ h := Nat.le_of_succ_le hk
    rw [List.range_succ, List.foldl_append, List.foldl_cons, List.foldl_nil]
    set B := (List.range k).foldl (fun acc y => manualRow w yP uP vP y acc)
      (List.replicate (w * h * 3) 0) with hB
    have hBlen : B.length = w * h * 3 := by
      rw [hB, length_manualRows, List.length_replicate]
    show (manualRow w yP uP vP k B).getD j 0 = _
    rw [manualRow, manualRow_prefix_getD w k yP uP vP w le_rfl B j, hBlen]
    have hsucc : (k + 1) * w * 3 = k * w * 3 + w * 3 := by ring
    by_cases hwin : k * w * 3 ≤ j ∧ j < k * w * 3 + w * 3 ∧ j < w * h * 3
    · rw [if_pos hwin, if_pos (by omega)]
    · rw [if_neg hwin, ih hk']
      by_cases hlow : j < k * w * 3
      · rw [if_pos hlow, if_pos (by omega)]
      · rw [if_neg hlow, if_neg (by omega)]

lemma length_manualBody (w h : Nat) (yP uP vP : List Nat) :
    (manualBody w h yP uP vP).length = w * h * 3 := by
  rw [manualBody, length_manualRows, List.length_replicate]

lemma manualBody_getD (w h : Nat) (yP uP vP : List Nat) (j : Nat)
    (hj : j < w * h * 3) :
    (manualBody w h yP uP vP).getD j 0 = outByte w yP uP vP j := by
  rw [manualBody, manualRows_prefix_getD w h yP uP vP h le_rfl j hj]
  have hcomm : h * w * 3 = w * h * 3 := by ring
  rw [if_pos (by omega)]

lemma getD_take (l : List Nat) (n i : Nat) (h : i < n) :
    (l.take n).getD i 0 = l.getD i 0 := by
  simp [List.getD, List.getElem?_take, h]

lemma getD_drop_take (l : List Nat) (n m i : Nat) (h : i < m) :
    ((l.drop n).take m).getD i 0 = l.getD (n + i) 0 := by
  rw [getD_take _ _ _ h]
  simp [List.getD, List.getElem?_drop]

/-! ## The delegating CPU converters

The external library calls (FFmpeg swscale, OpenCV `cvt_color`,
yuvutils `yuv420_to_rgb`) are not part of this repository; each is modelled
by an oracle parameter whose Lean type matches what the Rust type of the
call lets the library do, and the surrounding control flow is embedded from
the source. -/

/-- Model of `FfmpegConverter::convert` (ffmpeg_converter.rs lines 39–115).
`scalerInit` models `ffmpeg::software::scaling::Context::get` for the frame's
`(format, width, height)` (the fallible scaler construction in
`ensure_scaler`); `scaled` gives the bytes of the scaler's RGB24 output
plane, of which the source copies exactly `width*height*3`
(an RGB24 video frame's first plane holds at least that many bytes).
Note the source checks the input data length only in its `YUV420P` branch;
any other `pixel_format` is passed straight to the scaler. -/
def ffmpegConvert (scalerInit : PixelFormat → Nat → Nat → Except String Unit)
    (scaled : Nat → Nat) (f : FrameData) : Except String (List Nat) :=
  match scalerInit f.format f.width f.height with
  | .error e => .error e
  | .ok _ =>
    if f.format = PixelFormat.yuv420p then
      let ySize := f.width * f.height
      let uvSize := ySize / 4
      if f.data.length < ySize + 2 * uvSize then
        .error "Invalid YUV420P data size"
      else
        .ok ((List.range (f.width * f.height * 3)).map fun i => scaled i % 256)
    else
      .ok ((List.range (f.width * f.height * 3)).map fun i => scaled i % 256)

/-- Model of `OpencvConverter::convert` (opencv_converter.rs lines 18–61).
`cvOk` models the fallible `Mat` construction / `cvt_color` calls, `cvLen`
and `cv` the length and bytes of the resulting RGB `Mat`'s data. -/
def opencvConvert (cvOk : Except String Unit) (cvLen : Nat) (cv : Nat → Nat)
    (f : FrameData) : Except String (List Nat) :=
  if f.format ≠ PixelFormat.yuv420p then
    .error "OpenCV converter only supports YUV420P format"
  else
    let ySize := f.width * f.height
    let uvSize := ySize / 4
    if f.data.length < ySize + 2 * uvSize then .error "Invalid YUV data size"
    else
      match cvOk with
      | .error e => .error e
      | .ok _ =>
        let rgbSize := f.width * f.height * 3
        let rgbData := (List.range cvLen).map fun i => cv i % 256
        if rgbSize ≤ rgbData.length then .ok (rgbData.take rgbSize)
        else .error "OpenCV conversion resulted in insufficient data"

/-- Model of `yuvutils_rs::YuvPlanarImage` as built in
yuvutils_converter.rs lines 40–49. -/
structure YuvPlanarImage where
  yPlane : List Nat
  uPlane : List Nat
  vPlane : List Nat
  width : Nat
  height : Nat
  yStride : Nat
  uStride : Nat
  vStride : Nat

/-- Model of `YuvutilsConverter::convert` (yuvutils_converter.rs lines
18–60).  The library call `yuv420_to_rgb` receives `&mut rgb_data`; the
Rust type guarantees it can only rewrite the buffer contents in place, never
change the length, which the subtype in `lib`'s result captures. -/
def yuvutilsConvert
    (lib : YuvPlanarImage → (buf : List Nat) →
      Except String { l : List Nat // l.length = buf.length })
    (f : FrameData) : Except String (List Nat) :=
  if f.format ≠ PixelFormat.yuv420p then
    .error "Yuvutils converter only supports YUV420P format"
  else
    let ySize := f.width * f.height
    let uvSize := ySize / 4
    if f.data.length < ySize + 2 * uvSize then .error "Invalid YUV data size"
    else
      let img : YuvPlanarImage :=
        { yPlane := f.data.take ySize
        , uPlane := (f.data.drop ySize).take uvSize
        , vPlane := (f.data.drop (ySize + uvSize)).take uvSize
        , width := f.width
        , height := f.height
        , yStride := f.width
        , uStride := f.width / 2
        , vStride := f.width / 2 }
      match lib img (List.replicate (f.width * f.height * 3) 0) with
      | .error e => .error e
      | .ok out => .ok out.val

/-! ## The GPU engine, src/converters/wgpu_converter.rs

`GpuImageProcessor` holds the device, the pipeline, and the cached buffers.
The device itself is external; here a `GpuState` keeps exactly the fields
the source mutates (cached `(width, height)`, the five buffers — recorded by
their byte sizes — and `capacity`), plus a ghost field `allocations`
counting `create_buffers` calls (the spec's "allocation counter"; it has no
effect on any other field).  Kernel execution is an oracle
`GpuUpload → Nat → Nat` giving the byte at each index of the mapped read
buffer as a function of everything the engine uploaded.  A Rust panic is
`none`. -/

/-- The host data written to the device before a dispatch: the three padded
concatenated planes and the uniform parameter words. -/
structure GpuUpload where
  yData : List Nat
  uData : List Nat
  vData : List Nat
  params : List Nat
deriving DecidableEq, Repr

/-- The mutable fields of `GpuImageProcessor` (wgpu_converter.rs lines
11–23): cached `(width, height)`, the five optional buffers (modelled by
their allocated byte sizes), and `capacity`.  `allocations` is ghost
instrumentation incremented only by `createBuffers`. -/
structure GpuState where
  cachedSize : Option (Nat × Nat)
  yBuffer : Option Nat
  uBuffer : Option Nat
  vBuffer : Option Nat
  outputBuffer : Option Nat
  readBuffer : Option Nat
  capacity : Nat
  allocations : Nat
deriving DecidableEq, Repr

/-- The state `GpuImageProcessor::new` returns (wgpu_converter.rs lines
124–136): no cached size, no buffers, capacity 0. -/
def initialGpuState : GpuState :=
  { cachedSize := none, yBuffer := none, uBuffer := none, vBuffer := none
  , outputBuffer := none, readBuffer := none, capacity := 0, allocations := 0 }

/-- `pad_size` (wgpu_converter.rs line 370): `(size + 3) & !3`, i.e. round
up to a multiple of 4. -/
def padSize (s : Nat) : Nat := ((s + 3) / 4) * 4

/-- `pad_data` (wgpu_converter.rs lines 374–380): push zeros until the
length is a multiple of 4. -/
def padData (d : List Nat) : List Nat :=
  d ++ List.replicate ((4 - d.length % 4) % 4) 0

/-- `GpuImageProcessor::create_buffers` (wgpu_converter.rs lines 321–368):
allocate the five buffers for `(batch_size, width, height)` and record the
cached size and capacity.  `batch_rgba_size` is computed in `u32` in the
source (`(width * height * 4 * batch_size as u32) as u64`), hence the
`% 2 ^ 32`. -/
def createBuffers (st : GpuState) (batchSize w h : Nat) : GpuState :=
  let ySize := w * h
  let uvSize := ySize / 4
  let batchY := ySize * batchSize
  let batchUV := uvSize * batchSize
  let batchRGBA := (w * h * 4 * batchSize) % 2 ^ 32
  { cachedSize := some (w, h)
  , yBuffer := some (padSize batchY)
  , uBuffer := some (padSize batchUV)
  , vBuffer := some (padSize batchUV)
  , outputBuffer := some batchRGBA
  , readBuffer := some batchRGBA
  , capacity := batchSize
  , allocations := st.allocations + 1 }

/-- A batch entry as the engine receives it: `(Vec<u8>, u32, u32)` =
`(yuv data, width, height)`. -/
abbrev GpuFrame := List Nat × Nat × Nat

/-- The device model: the byte at each index of the mapped read buffer,
as a function of the most recent upload.  `get_mapped_range` returns
exactly the read buffer's size in bytes (a wgpu API invariant), so the
mapped data is `(List.range readSize).map (oracle upload · % 256)`. -/
abbrev DeviceOracle := GpuUpload → Nat → Nat

/-- The bytes observed in the mapped read buffer:
`let data = buffer_slice.get_mapped_range()` returns exactly `readSize`
bytes (the read buffer's size), whose contents come from the device. -/
def mappedData (oracle : DeviceOracle) (upload : GpuUpload)
    (readSize : Nat) : List Nat :=
  (List.range readSize).map (fun i => oracle upload i % 256)

/-- The `for pixel_idx in 0..(width*height)` unpack loop of `process_batch`
(wgpu_converter.rs lines 298–311) for one frame: read the 4-byte
little-endian RGBA word at each in-range offset and push its low three
bytes (R, G, B). -/
def unpackFrame (data : List Nat) (w h frameIdx : Nat) : List Nat :=
  (List.range (w * h)).flatMap (fun pixelIdx =>
    let rgbaOffset := frameIdx * (w * h * 4) + pixelIdx * 4
    if rgbaOffset + 3 < data.length then
      let b0 := data.getD rgbaOffset 0
      let b1 := data.getD (rgbaOffset + 1) 0
      let b2 := data.getD (rgbaOffset + 2) 0
      let b3 := data.getD (rgbaOffset + 3) 0
      let rgba := b0 + b1 * 256 + b2 * 65536 + b3 * 16777216
      [rgba % 256, rgba / 256 % 256, rgba / 65536 % 256]
    else [])

/-- The `for frame_idx in 0..batch_size` readback loop (wgpu_converter.rs
lines 297–313). -/
def unpackResults (data : List Nat) (batchSize w h : Nat) :
    List (List Nat) :=
  (List.range batchSize).map (unpackFrame data w h)

/-- The upload `process_batch` performs before dispatching (wgpu_converter.rs
lines 195–226): concatenate all Y planes, all U planes, all V planes
(`extend_from_slice` of the three sub-ranges of each frame's data), pad
each to a 4-byte multiple, and write the four `u32` uniform parameters
`[width, height, y_size*batch_size, uv_size*batch_size]`. -/
def uploadOf (frameData : List GpuFrame) (w h : Nat) : GpuUpload :=
  let ySize := w * h
  let uvSize := ySize / 4
  { yData := padData (frameData.flatMap (fun fr => fr.1.take ySize))
  , uData := padData (frameData.flatMap
      (fun fr => (fr.1.drop ySize).take uvSize))
  , vData := padData (frameData.flatMap
      (fun fr => (fr.1.drop (ySize + uvSize)).take uvSize))
  , params := [w % 2 ^ 32, h % 2 ^ 32,
      (ySize * frameData.length) % 2 ^ 32,
      (uvSize * frameData.length) % 2 ^ 32] }

/-- `GpuImageProcessor::process_batch` (wgpu_converter.rs lines 171–319):
check uniform dimensions, check every frame's data length, reallocate the
buffers when `capacity < batch_size` or the cached `(width, height)`
differs, upload the concatenated padded planes, dispatch, read back, and
unpack.  `none` models the panics: `frame_data[0]` on an empty slice, and
`.unwrap()` of an absent buffer. -/
def processBatch (oracle : DeviceOracle) (st : GpuState)
    (frameData : List GpuFrame) :
    Option (GpuState × Except String (List (List Nat))) :=
  match frameData with
  | [] => none
  | first :: _ =>
    let w := first.2.1
    let h := first.2.2
    if ¬ frameData.all (fun fr => fr.2.1 = w ∧ fr.2.2 = h) then
      some (st, .error "所有帧必须具有相同尺寸")
    else
      let batchSize := frameData.length
      let ySize := w * h
      let uvSize := ySize / 4
      let frameYuvSize := ySize + 2 * uvSize
      if frameData.any (fun fr => fr.1.length < frameYuvSize) then
        some (st, .error "YUV数据长度不足")
      else
        let needNewBuffers :=
          st.capacity < batchSize || st.cachedSize ≠ some (w, h)
        let st1 := if needNewBuffers then createBuffers st batchSize w h else st
        match st1.yBuffer, st1.uBuffer, st1.vBuffer, st1.outputBuffer,
            st1.readBuffer with
        | some _, some _, some _, some _, some readSize =>
          some (st1, .ok (unpackResults
            (mappedData oracle (uploadOf frameData w h) readSize)
            batchSize w h))
        | _, _, _, _, _ => none

/-- `GPU_BUFFER_LIMIT` (wgpu_converter.rs line 147): 128 MiB. -/
def GPU_BUFFER_LIMIT : Nat := 134217728

/-- `max_single_batch` (wgpu_converter.rs line 150):
`((GPU_BUFFER_LIMIT / frame_output_size) as f32 * 0.9) as usize`, where
`frame_output_size = (width * height * 4) as u64` wraps in `u32` first.
The source computes the `* 0.9` in `f32`; this model computes
`⌊q * 9/10⌋ = q * 9 / 10` exactly.  Every integer quotient `q` that any
theorem below exercises is exactly representable in `f32` with a product
away from an integer boundary, so the values agree. -/
def maxSingleBatch (w h : Nat) : Nat :=
  GPU_BUFFER_LIMIT / ((w * h * 4) % 2 ^ 32) * 9 / 10

/-- The `for batch_idx in 0..sub_batches` loop of
`convert_yuv420p_to_rgb` (wgpu_converter.rs lines 160–166): process the
slice `[batch_idx*max, min((batch_idx+1)*max, total))`, propagate the first
error (`?`), and extend `all_results` in order. -/
def convertLoop (oracle : DeviceOracle) (st : GpuState)
    (frameData : List GpuFrame) (maxSingle : Nat) :
    List Nat → Option (GpuState × Except String (List (List Nat)))
  | [] => some (st, .ok [])
  | batchIdx :: rest =>
    let startFrame := batchIdx * maxSingle
    let endFrame := min ((batchIdx + 1) * maxSingle) frameData.length
    let subBatch := (frameData.drop startFrame).take (endFrame - startFrame)
    match processBatch oracle st subBatch with
    | none => none
    | some (st1, .error e) => some (st1, .error e)
    | some (st1, .ok rs) =>
      match convertLoop oracle st1 frameData maxSingle rest with
      | none => none
      | some (st2, .error e) => some (st2, .error e)
      | some (st2, .ok rest') => some (st2, .ok (rs ++ rest'))

/-- `GpuImageProcessor::convert_yuv420p_to_rgb` (wgpu_converter.rs lines
139–169).  `none` models the two division-by-zero panics: the `u64`
division `GPU_BUFFER_LIMIT / frame_output_size` when the wrapped footprint
is zero, and `(total_frames + max_single_batch - 1) / max_single_batch`
when `max_single_batch` computes to zero on a batch larger than it. -/
def convertYuv420pToRgb (oracle : DeviceOracle) (st : GpuState)
    (frameData : List GpuFrame) :
    Option (GpuState × Except String (List (List Nat))) :=
  match frameData with
  | [] => some (st, .ok [])
  | first :: _ =>
    let w := first.2.1
    let h := first.2.2
    if (w * h * 4) % 2 ^ 32 = 0 then none
    else
      let maxSingle := maxSingleBatch w h
      let totalFrames := frameData.length
      if totalFrames ≤ maxSingle then processBatch oracle st frameData
      else if maxSingle = 0 then none
      else
        let subBatches := (totalFrames + maxSingle - 1) / maxSingle
        convertLoop oracle st frameData maxSingle (List.range subBatches)

/-! ## The batch pool and the single-frame GPU converter -/

/-- `BatchFrameData` (wgpu_converter.rs lines 384–389). -/
structure BatchFrameData where
  width : Nat
  height : Nat
  data : List Nat
deriving DecidableEq, Repr

/-- The mutable fields of `WgpuBatchPool` (wgpu_converter.rs lines
392–398).  `max_wait_time` / `last_batch_time` are real-time state; each
call below takes the boolean outcome of
`last_batch_time.elapsed() >= max_wait_time` as a parameter instead. -/
structure WgpuBatchPool where
  processor : Option GpuState
  frameBuffer : List BatchFrameData
  batchSize : Nat
deriving DecidableEq, Repr

/-- `WgpuBatchPool::process_batch` (wgpu_converter.rs lines 449–467):
drain the buffer, ensure a processor (device acquisition by
`GpuImageProcessor::new` is external; it is modelled as succeeding with a
fresh engine), and run the batched conversion.  The `Option` result of the
Rust method (`Ok(None)` when there was nothing to process) is the inner
`Option (List (List Nat))`. -/
def poolProcessBatch (oracle : DeviceOracle) (pool : WgpuBatchPool) :
    Option (WgpuBatchPool × Except String (Option (List (List Nat)))) :=
  if pool.frameBuffer.isEmpty then some (pool, .ok none)
  else
    let framesToProcess := pool.frameBuffer
    let pool1 := { pool with frameBuffer := [] }
    let proc := match pool1.processor with
      | some p => p
      | none => initialGpuState
    let batchData : List GpuFrame :=
      framesToProcess.map (fun fr => (fr.data, fr.width, fr.height))
    match convertYuv420pToRgb oracle proc batchData with
    | none => none
    | some (proc1, .error e) =>
      some ({ pool1 with processor := some proc1 }, .error e)
    | some (proc1, .ok rs) =>
      some ({ pool1 with processor := some proc1 }, .ok (some rs))

/-- `WgpuBatchPool::add_frame` (wgpu_converter.rs lines 423–440):
push the frame, then process when the buffer has reached `batch_size` or
the wait deadline has elapsed (`timeoutElapsed`). -/
def poolAddFrame (oracle : DeviceOracle) (timeoutElapsed : Bool)
    (pool : WgpuBatchPool) (fd : FrameData) :
    Option (WgpuBatchPool × Except String (Option (List (List Nat)))) :=
  let pool1 := { pool with frameBuffer :=
    pool.frameBuffer ++ [⟨fd.width, fd.height, fd.data⟩] }
  if pool1.batchSize ≤ pool1.frameBuffer.length || timeoutElapsed then
    poolProcessBatch oracle pool1
  else
    some (pool1, .ok none)

/-- `WgpuBatchPool::flush` (wgpu_converter.rs lines 442–447). -/
def poolFlush (oracle : DeviceOracle) (pool : WgpuBatchPool) :
    Option (WgpuBatchPool × Except String (Option (List (List Nat)))) :=
  if pool.frameBuffer.isEmpty then some (pool, .ok none)
  else poolProcessBatch oracle pool

/-- The tail of `WgpuBatchConverter::convert` (wgpu_converter.rs lines
539–546): force a flush, return the last result of the flushed batch, or
fail with "批处理转换失败". -/
def wgpuConvertFlushPath (oracle : DeviceOracle) (pool : WgpuBatchPool) :
    Option (WgpuBatchPool × Except String (List Nat)) :=
  match poolFlush oracle pool with
  | none => none
  | some (p2, .error e) => some (p2, .error e)
  | some (p2, .ok (some results)) =>
    match results.getLast? with
    | some r => some (p2, .ok r)
    | none => some (p2, .error "批处理转换失败")
  | some (p2, .ok none) => some (p2, .error "批处理转换失败")

/-- `<WgpuBatchConverter as YuvToRgbConverter>::convert` (wgpu_converter.rs
lines 530–547) on a converter whose pool is `pool`: add the frame; if that
produced a batch, return its last result; otherwise force a flush.
Note: no check of `frame_data.format` anywhere on this path. -/
def wgpuBatchConvert (oracle : DeviceOracle) (timeoutElapsed : Bool)
    (pool : WgpuBatchPool) (fd : FrameData) :
    Option (WgpuBatchPool × Except String (List Nat)) :=
  match poolAddFrame oracle timeoutElapsed pool fd with
  | none => none
  | some (p1, .error e) => some (p1, .error e)
  | some (p1, .ok (some results)) =>
    match results.getLast? with
    | some r => some (p1, .ok r)
    | none => wgpuConvertFlushPath oracle p1
  | some (p1, .ok none) => wgpuConvertFlushPath oracle p1

/-! ## The streaming extractor, src/frame_extraction.rs

The decoder is modelled as a list of packets of the video stream, each
decoding to a list of frame presentation timestamps (seconds, the source's
`decoded.timestamp() * time_base` in `f64`, here `Rat`).  The bounded
channel's receiver is modelled by `openUntil`: the number of sends that
succeed before the receiving end is closed (after a tokio mpsc receiver is
dropped, every send fails).  The decode of a packet itself is assumed to
succeed (`send_packet(..)?` errors are decoder-external). -/

/-- The loop state of `extract_frames_streaming` (frame_extraction.rs lines
105–106) plus the ghost list of frames that were actually sent over the
channel, as `(frame_number, timestamp)` pairs. -/
structure ExtState where
  nextExtractTime : Rat
  frameCount : Nat
  emitted : List (Nat × Rat)

/-- `next_extract_time = 0.0; frame_count = 0`. -/
def initExtState : ExtState := ⟨0, 0, []⟩

/-- `if frame_interval > 0.0 { next_extract_time += frame_interval }`
(frame_extraction.rs lines 128–130). -/
def advanceTime (th interval : Rat) : Rat :=
  if 0 < interval then th + interval else th

/-- The inner `while decoder.receive_frame(..).is_ok() && frame_count <
final_output_frames` loop (frame_extraction.rs lines 115–151) over the
timestamps one packet decodes to: skip the frame unless its timestamp has
reached `next_extract_time` (or the interval is zero), advance the
threshold, bump `frame_count`, send — a failed send breaks out of this
loop only — and break once `frame_count` reaches the target.  Note the
send-failure branch has already advanced the threshold and counted the
frame. -/
def extInner (interval : Rat) (final : Nat) (openUntil : Nat) :
    ExtState → List Rat → ExtState
  | st, [] => st
  | st, ts :: rest =>
    if st.frameCount < final then
      if (if interval = 0 then true
          else decide (st.nextExtractTime ≤ ts)) then
        if st.emitted.length < openUntil then
          if final ≤ st.frameCount + 1 then
            ⟨advanceTime st.nextExtractTime interval, st.frameCount + 1,
              st.emitted ++ [(st.frameCount + 1, ts)]⟩
          else
            extInner interval final openUntil
              ⟨advanceTime st.nextExtractTime interval, st.frameCount + 1,
                st.emitted ++ [(st.frameCount + 1, ts)]⟩ rest
        else
          ⟨advanceTime st.nextExtractTime interval, st.frameCount + 1,
            st.emitted⟩
      else extInner interval final openUntil st rest
    else st

/-- The outer `for (stream, packet) in input.packets()` loop
(frame_extraction.rs lines 110–157). -/
def extOuter (interval : Rat) (final : Nat) (openUntil : Nat) :
    ExtState → List (List Rat) → ExtState
  | st, [] => st
  | st, pkt :: rest =>
    let st1 := if st.frameCount < final then
      extInner interval final openUntil st pkt else st
    if final ≤ st1.frameCount then st1
    else extOuter interval final openUntil st1 rest

/-- `total_video_frames` (frame_extraction.rs lines 73–78):
`(video_duration_seconds * fps) as u32` — `f64 → u32` casts in Rust
truncate toward zero and saturate at zero, hence `Int.toNat ∘ Int.floor`
for the nonnegative values involved. -/
def totalVideoFrames (duration fps : Rat) : Nat :=
  (Int.floor (duration * fps)).toNat

/-- `final_output_frames` (frame_extraction.rs lines 80–88). -/
def finalOutputFrames (maxFrames sampleFps : Nat) (duration fps : Rat) :
    Nat :=
  if maxFrames = 0 then
    if 0 < sampleFps then (Int.floor (duration * (sampleFps : Rat))).toNat
    else totalVideoFrames duration fps
  else maxFrames

/-- `frame_interval` (frame_extraction.rs lines 90–96). -/
def frameInterval (maxFrames sampleFps : Nat) (duration : Rat) : Rat :=
  if 0 < sampleFps then 1 / (sampleFps : Rat)
  else if 0 < maxFrames then duration / (maxFrames : Rat)
  else 0

/-- `extract_frames_streaming` (frame_extraction.rs lines 42–165) after the
container has been opened and the video stream found: fail when the
duration is not positive or the frame rate metadata is invalid, otherwise
run the packet loop and return `Ok` with the loop state (whose
`frameCount` is the `frames_processed` field of `ProcessingResult`). -/
def extractFramesStreaming (maxFrames sampleFps : Nat) (duration fps : Rat)
    (openUntil : Nat) (packets : List (List Rat)) : Except String ExtState :=
  if ¬ 0 < duration then .error "无法获取视频时长信息"
  else if ¬ 0 < fps then .error "无法获取视频帧率信息"
  else
    .ok (extOuter (frameInterval maxFrames sampleFps duration)
      (finalOutputFrames maxFrames sampleFps duration fps)
      openUntil initExtState packets)

/-! ## Spec-side comparison definitions

These definitions follow the specification's words, for comparison against
the source-embedded definitions above. -/

/-- Modelled from the spec: the partition of a batch into "consecutive
sub-batches of size `max_single_batch` (last sub-batch may be smaller)" —
`ceil(n/m)` consecutive slices of length `m`. -/
def chunksOf (m : Nat) (l : List α) : List (List α) :=
  (List.range ((l.length + m - 1) / m)).map (fun i => (l.drop (i * m)).take m)

/-- Modelled from the spec: processing a list of sub-batches "sequentially,
concatenating results in original order", stopping at the first failure. -/
def processSeq (oracle : DeviceOracle) :
    GpuState → List (List GpuFrame) →
    Option (GpuState × Except String (List (List Nat)))
  | st, [] => some (st, .ok [])
  | st, c :: cs =>
    match processBatch oracle st c with
    | none => none
    | some (st1, .error e) => some (st1, .error e)
    | some (st1, .ok rs) =>
      match processSeq oracle st1 cs with
      | none => none
      | some (st2, .error e) => some (st2, .error e)
      | some (st2, .ok rest) => some (st2, .ok (rs ++ rest))

/-- Modelled from the spec (claim C6's formula): the claimed per-pixel
transform with the coefficients as the spec writes them — `0.344` and
`0.714` in the G channel. -/
def specClaimPixel (yv uv vv : Nat) : Nat × Nat × Nat :=
  let y : Rat := (yv : Rat)
  let u : Rat := (uv : Rat) - 128
  let v : Rat := (vv : Rat) - 128
  ( asU8 (rustClamp (y + 1.402 * v) 0 255)
  , asU8 (rustClamp (y - 0.344 * u - 0.714 * v) 0 255)
  , asU8 (rustClamp (y + 1.772 * u) 0 255) )

/-- Modelled from the spec: "emit a frame once its presentation timestamp
passes a running threshold, advancing the threshold by `Δ` each emission",
with no more than `cap` emissions.  Returns the emitted timestamps. -/
def specThresholdFilter (Δ : Rat) (cap : Nat) :
    Rat → Nat → List Rat → List Rat
  | _, _, [] => []
  | th, k, ts :: rest =>
    if cap ≤ k then []
    else if th ≤ ts then ts :: specThresholdFilter Δ cap (th + Δ) (k + 1) rest
    else specThresholdFilter Δ cap th k rest

/-! ## Well-formedness of the GPU engine state

The buffer fields of a `GpuState` are exactly what `create_buffers` set
them to for the cached `(width, height)` and the current capacity, and the
cached working set stays under the `u32` output-size range (which every
state reachable through `convert_yuv420p_to_rgb`'s budget splitting does).
The freshly constructed engine satisfies this vacuously. -/
def GpuWF (st : GpuState) : Prop :=
  ∀ w h, st.cachedSize = some (w, h) →
    st.yBuffer = some (padSize (w * h * st.capacity)) ∧
    st.uBuffer = some (padSize (w * h / 4 * st.capacity)) ∧
    st.vBuffer = some (padSize (w * h / 4 * st.capacity)) ∧
    st.outputBuffer = some ((w * h * 4 * st.capacity) % 2 ^ 32) ∧
    st.readBuffer = some ((w * h * 4 * st.capacity) % 2 ^ 32) ∧
    w * h * 4 * st.capacity < 2 ^ 32

lemma ceilDiv_bounds (n m : Nat) (hm : 0 < m) (hn : 0 < n) :
    n ≤ m * ((n + m - 1) / m) ∧ m * ((n + m - 1) / m - 1) < n := by
  obtain ⟨q, hq⟩ : ∃ q, (n + m - 1) / m = q := ⟨_, rfl⟩
  rw [hq]
  have hmod := Nat.div_add_mod (n + m - 1) m
  rw [hq] at hmod
  have hr : (n + m - 1) % m < m := Nat.mod_lt _ hm
  have hq1 : 1 ≤ q := by
    rcases Nat.eq_zero_or_pos q with h0 | h1
    · rw [h0, Nat.mul_zero, Nat.zero_add] at hmod
      omega
    · exact h1
  obtain ⟨q', rfl⟩ : ∃ q', q = q' + 1 := ⟨q - 1, by omega⟩
  have hexp : m * (q' + 1) = m * q' + m := by ring
  constructor
  · omega
  · have hsub : q' + 1 - 1 = q' := rfl
    rw [hsub]
    omega

lemma chunksOf_length (m : Nat) (l : List α) :
    (chunksOf m l).length = (l.length + m - 1) / m := by
  simp [chunksOf]

lemma chunksOf_getD (m : Nat) (l : List α) (i : Nat)
    (hi : i < (l.length + m - 1) / m) :
    (chunksOf m l).getD i [] = (l.drop (i * m)).take m := by
  simp [chunksOf, List.getD, List.get?_eq_getElem?, List.getElem?_map,
    List.getElem?_range, hi]

lemma chunksOf_size_eq (m : Nat) (l : List α) (i : Nat)
    (hi : i < (l.length + m - 1) / m) :
    ((chunksOf m l).getD i []).length = min m (l.length - i * m) := by
  rw [chunksOf_getD m l i hi]
  simp [List.length_take, List.length_drop]

lemma chunksOf_flatten (m : Nat) (hm : 0 < m) (l : List α) :
    (chunksOf m l).flatten = l := by
  have key : ∀ j,
      ((List.range j).map (fun i => (l.drop (i * m)).take m)).flatten =
        l.take (j * m) := by
    intro j
    induction j with
    | zero => simp
    | succ j ih =>
      rw [List.range_succ, List.map_append, List.flatten_append]
      simp only [List.map_cons, List.map_nil, List.flatten_cons,
        List.flatten_nil, List.append_nil]
      rw [ih, show (j + 1) * m = j * m + m by ring, List.take_add]
  rw [chunksOf, key]
  rcases Nat.eq_zero_or_pos l.length with h0 | hpos
  · rw [List.length_eq_zero.mp h0]
    simp
  · apply List.take_of_length_le
    have h1 := (ceilDiv_bounds l.length m hm hpos).1
    have hcomm : m * ((l.length + m - 1) / m) =
        ((l.length + m - 1) / m) * m := by ring
    omega

lemma slice_take_m (l : List α) (m i : Nat) (hm : 0 < m)
    (hi : i * m < l.length) :
    (l.drop (i * m)).take (min ((i + 1) * m) l.length - i * m) =
      (l.drop (i * m)).take m := by
  have hexp : (i + 1) * m = i * m + m := by ring
  rcases le_or_lt ((i + 1) * m) l.length with hle | hlt
  · rw [min_eq_left hle]
    congr 1
    omega
  · rw [min_eq_right (le_of_lt hlt)]
    rw [List.take_of_length_le, List.take_of_length_le]
    · rw [List.length_drop]
      omega
    · rw [List.length_drop]

lemma convertLoop_eq_processSeq (oracle : DeviceOracle)
    (frames : List GpuFrame) (m : Nat) (idxs : List Nat) :
    ∀ st, convertLoop oracle st frames m idxs =
      processSeq oracle st (idxs.map (fun i =>
        (frames.drop (i * m)).take
          (min ((i + 1) * m) frames.length - i * m))) := by
  induction idxs with
  | nil => intro st; rfl
  | cons i rest ih =>
    intro st
    rw [List.map_cons]
    show convertLoop oracle st frames m (i :: rest) = _
    rw [convertLoop, processSeq]
    cases hpb : processBatch oracle st
        ((frames.drop (i * m)).take
          (min ((i + 1) * m) frames.length - i * m)) with
    | none => rfl
    | some p =>
      obtain ⟨st1, r⟩ := p
      cases r with
      | error e => rfl
      | ok rs =>
        dsimp only
        rw [ih st1]

lemma gpuWF_initial : GpuWF initialGpuState := by
  intro w h hsome
  simp [initialGpuState] at hsome

lemma length_mappedData (oracle : DeviceOracle) (upload : GpuUpload)
    (readSize : Nat) : (mappedData oracle upload readSize).length = readSize := by
  simp [mappedData]

lemma length_unpackFrame (data : List Nat) (w h frameIdx : Nat)
    (hfit : frameIdx * (w * h * 4) + w * h * 4 ≤ data.length) :
    (unpackFrame data w h frameIdx).length = w * h * 3 := by
  unfold unpackFrame
  rw [List.length_flatMap]
  have hmap : ∀ p ∈ List.range (w * h),
      (List.length ∘ fun pixelIdx =>
        let rgbaOffset := frameIdx * (w * h * 4) + pixelIdx * 4
        if rgbaOffset + 3 < data.length then
          let b0 := data.getD rgbaOffset 0
          let b1 := data.getD (rgbaOffset + 1) 0
          let b2 := data.getD (rgbaOffset + 2) 0
          let b3 := data.getD (rgbaOffset + 3) 0
          let rgba := b0 + b1 * 256 + b2 * 65536 + b3 * 16777216
          [rgba % 256, rgba / 256 % 256, rgba / 65536 % 256]
        else []) p = 3 := by
    intro p hp
    rw [List.mem_range] at hp
    have hin : frameIdx * (w * h * 4) + p * 4 + 3 < data.length := by
      have : p * 4 + 4 ≤ w * h * 4 := by omega
      omega
    simp only [Function.comp_apply, if_pos hin, List.length_cons,
      List.length_nil]
  calc (List.map _ (List.range (w * h))).sum
      = (List.replicate (w * h) 3).sum := by
        congr 1
        rw [List.eq_replicate_iff]
        refine ⟨by simp, ?_⟩
        intro b hb
        rw [List.mem_map] at hb
        obtain ⟨p, hp, rfl⟩ := hb
        exact hmap p hp
    _ = w * h * 3 := by rw [List.sum_replicate]; ring

lemma length_unpackResults (data : List Nat) (batchSize w h : Nat)
    (hfit : batchSize * (w * h * 4) ≤ data.length) :
    (unpackResults data batchSize w h).length = batchSize ∧
      ∀ r ∈ unpackResults data batchSize w h, r.length = w * h * 3 := by
  constructor
  · simp [unpackResults]
  · intro r hr
    rw [unpackResults, List.mem_map] at hr
    obtain ⟨frameIdx, hfi, rfl⟩ := hr
    rw [List.mem_range] at hfi
    apply length_unpackFrame
    have : (frameIdx + 1) * (w * h * 4) ≤ batchSize * (w * h * 4) :=
      Nat.mul_le_mul_right _ (by omega)
    have hexp : (frameIdx + 1) * (w * h * 4) =
        frameIdx * (w * h * 4) + w * h * 4 := by ring
    omega

lemma createBuffers_wf (st : GpuState) (b w h : Nat)
    (hbound : w * h * 4 * b < 2 ^ 32) :
    GpuWF (createBuffers st b w h) := by
  intro w' h' hsome
  simp only [createBuffers] at hsome ⊢
  obtain ⟨rfl, rfl⟩ : w = w' ∧ h = h' := by
    simpa using hsome
  simpa using hbound

/-- Reduction of `process_batch` when both validity checks pass and the
buffers are reallocated. -/
lemma processBatch_realloc (oracle : DeviceOracle) (st : GpuState)
    (d : List Nat) (w h : Nat) (rest : List GpuFrame)
    (hall : ((d, w, h) :: rest).all
      (fun fr => fr.2.1 = w ∧ fr.2.2 = h) = true)
    (hany : ((d, w, h) :: rest).any
      (fun fr => fr.1.length < w * h + 2 * (w * h / 4)) = false)
    (hneed : st.capacity < ((d, w, h) :: rest).length ∨
      st.cachedSize ≠ some (w, h)) :
    processBatch oracle st ((d, w, h) :: rest) =
      some (createBuffers st ((d, w, h) :: rest).length w h,
        .ok (unpackResults
          (mappedData oracle (uploadOf ((d, w, h) :: rest) w h)
            ((w * h * 4 * ((d, w, h) :: rest).length) % 2 ^ 32))
          ((d, w, h) :: rest).length w h)) := by
  have hneed' : (decide (st.capacity < ((d, w, h) :: rest).length) ||
      decide (st.cachedSize ≠ some (w, h))) = true := by
    simp only [Bool.or_eq_true, decide_eq_true_eq]
    exact hneed
  simp only [processBatch, hall, hany, hneed', Bool.not_true,
    Bool.false_eq_true, if_false, if_true, createBuffers]
  simp

/-- Reduction of `process_batch` when both validity checks pass and the
cached buffers are reused. -/
lemma processBatch_reuse (oracle : DeviceOracle) (st : GpuState)
    (d : List Nat) (w h : Nat) (rest : List GpuFrame)
    (hall : ((d, w, h) :: rest).all
      (fun fr => fr.2.1 = w ∧ fr.2.2 = h) = true)
    (hany : ((d, w, h) :: rest).any
      (fun fr => fr.1.length < w * h + 2 * (w * h / 4)) = false)
    (hnneed : ¬ (st.capacity < ((d, w, h) :: rest).length ∨
      st.cachedSize ≠ some (w, h)))
    (hwf : GpuWF st) :
    processBatch oracle st ((d, w, h) :: rest) =
      some (st, .ok (unpackResults
        (mappedData oracle (uploadOf ((d, w, h) :: rest) w h)
          ((w * h * 4 * st.capacity) % 2 ^ 32))
        ((d, w, h) :: rest).length w h)) := by
  push_neg at hnneed
  obtain ⟨hcap, hcached⟩ := hnneed
  obtain ⟨hy, hu, hv, ho, hr, hb⟩ := hwf w h hcached
  have hneed' : (decide (st.capacity < ((d, w, h) :: rest).length) ||
      decide (st.cachedSize ≠ some (w, h))) = false := by
    rw [decide_eq_false (Nat.not_lt.mpr hcap),
      decide_eq_false (by simp [hcached])]
    rfl
  simp only [processBatch, hall, hany, hneed', Bool.not_false,
    Bool.false_eq_true, if_false, if_true, hy, hu, hv, ho, hr]
  simp

/-- Master lemma for a successful `process_batch` call: under the validity
checks, the call succeeds, preserves well-formedness, caches `(w, h)` with
capacity at least the batch size, produces one `w*h*3`-byte result per
frame, and allocates exactly when `capacity < batch_size` or the cached
size differs — leaving the state untouched otherwise. -/
lemma processBatch_ok_spec (oracle : DeviceOracle) (st : GpuState)
    (d : List Nat) (w h : Nat) (rest : List GpuFrame)
    (huni : ∀ fr ∈ (d, w, h) :: rest, fr.2.1 = w ∧ fr.2.2 = h)
    (hlen : ∀ fr ∈ (d, w, h) :: rest, w * h + 2 * (w * h / 4) ≤ fr.1.length)
    (hwf : GpuWF st)
    (hbound : w * h * 4 * ((d, w, h) :: rest).length < 2 ^ 32) :
    ∃ st' results,
      processBatch oracle st ((d, w, h) :: rest) = some (st', .ok results) ∧
      GpuWF st' ∧ st'.cachedSize = some (w, h) ∧
      ((d, w, h) :: rest).length ≤ st'.capacity ∧
      w * h * 4 * st'.capacity < 2 ^ 32 ∧
      results.length = ((d, w, h) :: rest).length ∧
      (∀ r ∈ results, r.length = w * h * 3) ∧
      st'.allocations = st.allocations +
        (if st.capacity < ((d, w, h) :: rest).length ∨
            st.cachedSize ≠ some (w, h) then 1 else 0) ∧
      (¬ (st.capacity < ((d, w, h) :: rest).length ∨
          st.cachedSize ≠ some (w, h)) → st' = st) := by
  have hall : ((d, w, h) :: rest).all
      (fun fr => fr.2.1 = w ∧ fr.2.2 = h) = true :=
    List.all_eq_true.mpr (fun fr hfr => decide_eq_true (huni fr hfr))
  have hany : ((d, w, h) :: rest).any
      (fun fr => fr.1.length < w * h + 2 * (w * h / 4)) = false := by
    simp only [List.any_eq_false, decide_eq_true_eq]
    intro fr hfr
    exact Nat.not_lt.mpr (hlen fr hfr)
  by_cases hneed : st.capacity < ((d, w, h) :: rest).length ∨
      st.cachedSize ≠ some (w, h)
  · rw [processBatch_realloc oracle st d w h rest hall hany hneed]
    have hnowrap : (w * h * 4 * ((d, w, h) :: rest).length) % 2 ^ 32 =
        w * h * 4 * ((d, w, h) :: rest).length := Nat.mod_eq_of_lt hbound
    have hfit : ((d, w, h) :: rest).length * (w * h * 4) ≤
        (mappedData oracle (uploadOf ((d, w, h) :: rest) w h)
          ((w * h * 4 * ((d, w, h) :: rest).length) % 2 ^ 32)).length := by
      rw [length_mappedData, hnowrap, Nat.mul_comm]
    obtain ⟨hlen1, hlen2⟩ := length_unpackResults _ _ w h hfit
    refine ⟨_, _, rfl, createBuffers_wf st _ w h hbound, ?_, ?_, ?_, hlen1,
      hlen2, ?_, fun hn => absurd hneed hn⟩
    · simp [createBuffers]
    · simp [createBuffers]
    · simpa [createBuffers] using hbound
    · simp only [createBuffers, if_pos hneed]
  · rw [processBatch_reuse oracle st d w h rest hall hany hneed hwf]
    have hnneed := hneed
    push_neg at hnneed
    obtain ⟨hcap, hcached⟩ := hnneed
    obtain ⟨hy, hu, hv, ho, hr, hb⟩ := hwf w h hcached
    have hnowrap : (w * h * 4 * st.capacity) % 2 ^ 32 =
        w * h * 4 * st.capacity := Nat.mod_eq_of_lt hb
    have hfit : ((d, w, h) :: rest).length * (w * h * 4) ≤
        (mappedData oracle (uploadOf ((d, w, h) :: rest) w h)
          ((w * h * 4 * st.capacity) % 2 ^ 32)).length := by
      rw [length_mappedData, hnowrap, Nat.mul_comm (w * h * 4) st.capacity]
      exact Nat.mul_le_mul_right _ hcap
    obtain ⟨hlen1, hlen2⟩ := length_unpackResults _ _ w h hfit
    refine ⟨st, _, rfl, hwf, hcached, hcap, hb, hlen1, hlen2, ?_, fun _ => rfl⟩
    rw [if_neg hneed]
    omega

/-! ## Further GPU engine lemmas: error inversions and the budget bound -/

/-- The working set the budget formula admits never exceeds the 128 MiB
ceiling: `max_single_batch * frame_output_size ≤ GPU_BUFFER_LIMIT`. -/
lemma maxSingleBatch_mul_le (w h : Nat) :
    maxSingleBatch w h * ((w * h * 4) % 2 ^ 32) ≤ GPU_BUFFER_LIMIT := by
  rcases Nat.eq_zero_or_pos ((w * h * 4) % 2 ^ 32) with h0 | hf
  · rw [h0]
    simp
  · have h1 : maxSingleBatch w h ≤ GPU_BUFFER_LIMIT / ((w * h * 4) % 2 ^ 32) := by
      rw [maxSingleBatch]
      calc GPU_BUFFER_LIMIT / ((w * h * 4) % 2 ^ 32) * 9 / 10
          ≤ GPU_BUFFER_LIMIT / ((w * h * 4) % 2 ^ 32) * 10 / 10 :=
            Nat.div_le_div_right (by omega)
        _ = GPU_BUFFER_LIMIT / ((w * h * 4) % 2 ^ 32) :=
            Nat.mul_div_cancel _ (by norm_num)
    calc maxSingleBatch w h * ((w * h * 4) % 2 ^ 32)
        ≤ GPU_BUFFER_LIMIT / ((w * h * 4) % 2 ^ 32) * ((w * h * 4) % 2 ^ 32) :=
          Nat.mul_le_mul_right _ h1
      _ ≤ GPU_BUFFER_LIMIT := Nat.div_mul_le_self _ _

/-- Reduction of `process_batch` when dimensions are uniform but some
frame's data is shorter than `frame_yuv_size`: the length check fires. -/
lemma processBatch_shortData (oracle : DeviceOracle) (st : GpuState)
    (d : List Nat) (w h : Nat) (rest : List GpuFrame)
    (hall : ((d, w, h) :: rest).all
      (fun fr => fr.2.1 = w ∧ fr.2.2 = h) = true)
    (hany : ((d, w, h) :: rest).any
      (fun fr => fr.1.length < w * h + 2 * (w * h / 4)) = true) :
    processBatch oracle st ((d, w, h) :: rest) =
      some (st, .error "YUV数据长度不足") := by
  simp only [processBatch, hall, hany, Bool.not_true, Bool.false_eq_true,
    if_false, if_true]
  simp

/-- Inversion of a successful `process_batch`: well-formedness is
preserved and the results are one `w*h*3`-byte buffer per frame. -/
lemma processBatch_ok_inv (oracle : DeviceOracle) (st : GpuState)
    (w h : Nat) (frames : List GpuFrame) (hne : frames ≠ [])
    (hdims : ∀ fr ∈ frames, fr.2.1 = w ∧ fr.2.2 = h)
    (hwf : GpuWF st) (hbound : w * h * 4 * frames.length < 2 ^ 32)
    (st' : GpuState) (results : List (List Nat))
    (hok : processBatch oracle st frames = some (st', .ok results)) :
    GpuWF st' ∧ results.length = frames.length ∧
      ∀ r ∈ results, r.length = w * h * 3 := by
  obtain ⟨⟨d0, w0, h0⟩, rest, rfl⟩ : ∃ fr0 rest, frames = fr0 :: rest := by
    cases frames with
    | nil => exact absurd rfl hne
    | cons a l => exact ⟨a, l, rfl⟩
  obtain ⟨hw0, hh0⟩ := hdims (d0, w0, h0) (List.mem_cons_self _ _)
  dsimp only at hw0 hh0
  subst hw0 hh0
  by_cases hshort : ∃ fr ∈ (d0, w0, h0) :: rest,
      fr.1.length < w0 * h0 + 2 * (w0 * h0 / 4)
  · have hall : ((d0, w0, h0) :: rest).all
        (fun fr => fr.2.1 = w0 ∧ fr.2.2 = h0) = true :=
      List.all_eq_true.mpr (fun fr hfr => decide_eq_true (hdims fr hfr))
    have hany : ((d0, w0, h0) :: rest).any
        (fun fr => fr.1.length < w0 * h0 + 2 * (w0 * h0 / 4)) = true := by
      rw [List.any_eq_true]
      obtain ⟨fr, hfr, hlt⟩ := hshort
      exact ⟨fr, hfr, decide_eq_true hlt⟩
    rw [processBatch_shortData oracle st d0 w0 h0 rest hall hany] at hok
    exact absurd hok (by simp)
  · push_neg at hshort
    obtain ⟨st'', results'', heq, hwf', _, _, _, hlen1, hlen2, _, _⟩ :=
      processBatch_ok_spec oracle st d0 w0 h0 rest hdims hshort hwf hbound
    rw [heq] at hok
    simp only [Option.some.injEq, Prod.mk.injEq, Except.ok.injEq] at hok
    obtain ⟨rfl, rfl⟩ := hok
    exact ⟨hwf', hlen1, hlen2⟩

/-- Through the sub-batch loop, a successful run preserves well-formedness
and yields only `w*h*3`-byte frames. -/
lemma convertLoop_ok_lengths (oracle : DeviceOracle) (frames : List GpuFrame)
    (m w h : Nat)
    (hdims : ∀ fr ∈ frames, fr.2.1 = w ∧ fr.2.2 = h)
    (hmb : m * (w * h * 4) ≤ GPU_BUFFER_LIMIT) (hm : 0 < m) :
    ∀ (idxs : List Nat) (st : GpuState), GpuWF st →
      (∀ i ∈ idxs, i * m < frames.length) →
      ∀ st' results,
        convertLoop oracle st frames m idxs = some (st', .ok results) →
        GpuWF st' ∧ ∀ r ∈ results, r.length = w * h * 3 := by
  intro idxs
  induction idxs with
  | nil =>
    intro st hwf _ st' results hok
    simp only [convertLoop, Option.some.injEq, Prod.mk.injEq,
      Except.ok.injEq] at hok
    obtain ⟨rfl, rfl⟩ := hok
    exact ⟨hwf, by simp⟩
  | cons i idxs ih =>
    intro st hwf hin st' results hok
    simp only [convertLoop] at hok
    have him : i * m < frames.length := hin i (List.mem_cons_self _ _)
    have hexp : (i + 1) * m = i * m + m := by ring
    have hsublen : ((frames.drop (i * m)).take
        (min ((i + 1) * m) frames.length - i * m)).length =
        min ((i + 1) * m) frames.length - i * m := by
      rw [List.length_take, List.length_drop]
      omega
    have hsubpos : 0 < ((frames.drop (i * m)).take
        (min ((i + 1) * m) frames.length - i * m)).length := by
      rw [hsublen]
      omega
    have hsubm : ((frames.drop (i * m)).take
        (min ((i + 1) * m) frames.length - i * m)).length ≤ m := by
      rw [hsublen]
      omega
    have hdims_sub : ∀ fr ∈ (frames.drop (i * m)).take
        (min ((i + 1) * m) frames.length - i * m),
        fr.2.1 = w ∧ fr.2.2 = h := fun fr hfr =>
      hdims fr (List.mem_of_mem_drop (List.mem_of_mem_take hfr))
    have hbound_sub : w * h * 4 * ((frames.drop (i * m)).take
        (min ((i + 1) * m) frames.length - i * m)).length < 2 ^ 32 := by
      have h1 : w * h * 4 * ((frames.drop (i * m)).take
          (min ((i + 1) * m) frames.length - i * m)).length ≤
          w * h * 4 * m := Nat.mul_le_mul_left _ hsubm
      have h2 : w * h * 4 * m = m * (w * h * 4) := by ring
      have h3 : GPU_BUFFER_LIMIT < 2 ^ 32 := by norm_num [GPU_BUFFER_LIMIT]
      omega
    cases hpb : processBatch oracle st ((frames.drop (i * m)).take
        (min ((i + 1) * m) frames.length - i * m)) with
    | none =>
      rw [hpb] at hok
      exact absurd hok (by simp)
    | some p =>
      obtain ⟨st1, r⟩ := p
      cases r with
      | error e =>
        rw [hpb] at hok
        exact absurd hok (by simp)
      | ok rs =>
        rw [hpb] at hok
        dsimp only at hok
        obtain ⟨hwf1, _, hrs⟩ := processBatch_ok_inv oracle st w h _
          (List.ne_nil_of_length_pos hsubpos) hdims_sub hwf hbound_sub
          st1 rs hpb
        cases hloop : convertLoop oracle st1 frames m idxs with
        | none =>
          rw [hloop] at hok
          exact absurd hok (by simp)
        | some q =>
          obtain ⟨st2, r2⟩ := q
          cases r2 with
          | error e =>
            rw [hloop] at hok
            exact absurd hok (by simp)
          | ok rest' =>
            rw [hloop] at hok
            simp only [Option.some.injEq, Prod.mk.injEq,
              Except.ok.injEq] at hok
            obtain ⟨rfl, rfl⟩ := hok
            obtain ⟨hwf2, hrest'⟩ := ih st1 hwf1
              (fun j hj => hin j (List.mem_cons_of_mem _ hj)) st2 rest' hloop
            refine ⟨hwf2, fun r hr => ?_⟩
            rcases List.mem_append.mp hr with hr | hr
            · exact hrs r hr
            · exact hrest' r hr

/-- A successful `convert_yuv420p_to_rgb` (whether direct or split) returns
only `w*h*3`-byte frames. -/
lemma convertYuv_ok_lengths (oracle : DeviceOracle) (st : GpuState)
    (d : List Nat) (w h : Nat) (rest : List GpuFrame)
    (st' : GpuState) (results : List (List Nat))
    (hdims : ∀ fr ∈ (d, w, h) :: rest, fr.2.1 = w ∧ fr.2.2 = h)
    (hwf : GpuWF st) (hwb : w * h * 4 < 2 ^ 32)
    (hok : convertYuv420pToRgb oracle st ((d, w, h) :: rest) =
      some (st', .ok results)) :
    ∀ r ∈ results, r.length = w * h * 3 := by
  have hmod : (w * h * 4) % 2 ^ 32 = w * h * 4 := Nat.mod_eq_of_lt hwb
  by_cases hz : (w * h * 4) % 2 ^ 32 = 0
  · simp only [convertYuv420pToRgb, if_pos hz] at hok
    exact absurd hok (by simp)
  · have hmb : maxSingleBatch w h * (w * h * 4) ≤ GPU_BUFFER_LIMIT := by
      have h1 := maxSingleBatch_mul_le w h
      rw [hmod] at h1
      exact h1
    have h32 : GPU_BUFFER_LIMIT < 2 ^ 32 := by norm_num [GPU_BUFFER_LIMIT]
    simp only [convertYuv420pToRgb, if_neg hz] at hok
    by_cases hle : ((d, w, h) :: rest).length ≤ maxSingleBatch w h
    · rw [if_pos hle] at hok
      have hbound : w * h * 4 * ((d, w, h) :: rest).length < 2 ^ 32 := by
        have h1 : w * h * 4 * ((d, w, h) :: rest).length ≤
            w * h * 4 * maxSingleBatch w h := Nat.mul_le_mul_left _ hle
        have h2 : w * h * 4 * maxSingleBatch w h =
            maxSingleBatch w h * (w * h * 4) := by ring
        omega
      exact (processBatch_ok_inv oracle st w h _ (by simp) hdims hwf hbound
        st' results hok).2.2
    · rw [if_neg hle] at hok
      by_cases hm0 : maxSingleBatch w h = 0
      · rw [if_pos hm0] at hok
        exact absurd hok (by simp)
      · rw [if_neg hm0] at hok
        have hm : 0 < maxSingleBatch w h := Nat.pos_of_ne_zero hm0
        have hn0 : 0 < ((d, w, h) :: rest).length := by simp
        have hbounds := ceilDiv_bounds ((d, w, h) :: rest).length
          (maxSingleBatch w h) hm hn0
        refine (convertLoop_ok_lengths oracle _ (maxSingleBatch w h) w h
          hdims hmb hm _ st hwf ?_ st' results hok).2
        intro i hi
        rw [List.mem_range] at hi
        have h1 : i * maxSingleBatch w h ≤
            ((((d, w, h) :: rest).length + maxSingleBatch w h - 1) /
              maxSingleBatch w h - 1) * maxSingleBatch w h :=
          Nat.mul_le_mul_right _ (by omega)
        have h2 : ((((d, w, h) :: rest).length + maxSingleBatch w h - 1) /
            maxSingleBatch w h - 1) * maxSingleBatch w h =
            maxSingleBatch w h *
              ((((d, w, h) :: rest).length + maxSingleBatch w h - 1) /
                maxSingleBatch w h - 1) := by ring
        omega

/-- Through the sub-batch loop, a batch containing a too-short frame makes
some sub-batch fail the length check, so the loop returns an error. -/
lemma convertLoop_short_errors (oracle : DeviceOracle)
    (frames : List GpuFrame) (m w h : Nat)
    (hdims : ∀ fr ∈ frames, fr.2.1 = w ∧ fr.2.2 = h)
    (hmb : m * (w * h * 4) ≤ GPU_BUFFER_LIMIT) (hm : 0 < m) :
    ∀ (idxs : List Nat) (st : GpuState), GpuWF st →
      (∀ i ∈ idxs, i * m < frames.length) →
      (∃ i ∈ idxs, ∃ fr ∈ (frames.drop (i * m)).take m,
        fr.1.length < w * h + 2 * (w * h / 4)) →
      ∃ st' e, convertLoop oracle st frames m idxs =
        some (st', .error e) := by
  intro idxs
  induction idxs with
  | nil =>
    intro st _ _ hex
    obtain ⟨i, hi, _⟩ := hex
    exact absurd hi (List.not_mem_nil i)
  | cons i idxs ih =>
    intro st hwf hin hex
    have him : i * m < frames.length := hin i (List.mem_cons_self _ _)
    have hexp : (i + 1) * m = i * m + m := by ring
    have hslice : (frames.drop (i * m)).take
        (min ((i + 1) * m) frames.length - i * m) =
        (frames.drop (i * m)).take m := slice_take_m frames m i hm him
    have hdims_sub : ∀ fr ∈ (frames.drop (i * m)).take m,
        fr.2.1 = w ∧ fr.2.2 = h := fun fr hfr =>
      hdims fr (List.mem_of_mem_drop (List.mem_of_mem_take hfr))
    have hsubpos : 0 < ((frames.drop (i * m)).take m).length := by
      rw [List.length_take, List.length_drop]
      omega
    obtain ⟨⟨d0, w0, h0⟩, rest', hsub⟩ :
        ∃ fr0 rest', (frames.drop (i * m)).take m = fr0 :: rest' := by
      cases hc : (frames.drop (i * m)).take m with
      | nil => rw [hc] at hsubpos; simp at hsubpos
      | cons a l => exact ⟨a, l, rfl⟩
    obtain ⟨hw0, hh0⟩ := hdims_sub (d0, w0, h0) (hsub ▸ List.mem_cons_self _ _)
    dsimp only at hw0 hh0
    subst hw0 hh0
    simp only [convertLoop, hslice, hsub]
    by_cases hsh : ∃ fr ∈ (d0, w0, h0) :: rest',
        fr.1.length < w0 * h0 + 2 * (w0 * h0 / 4)
    · -- this sub-batch fails the length check
      have hall : ((d0, w0, h0) :: rest').all
          (fun fr => fr.2.1 = w0 ∧ fr.2.2 = h0) = true :=
        List.all_eq_true.mpr (fun fr hfr =>
          decide_eq_true (hdims_sub fr (hsub ▸ hfr)))
      have hany : ((d0, w0, h0) :: rest').any
          (fun fr => fr.1.length < w0 * h0 + 2 * (w0 * h0 / 4)) = true := by
        rw [List.any_eq_true]
        obtain ⟨fr, hfr, hlt⟩ := hsh
        exact ⟨fr, hfr, decide_eq_true hlt⟩
      rw [processBatch_shortData oracle st d0 w0 h0 rest' hall hany]
      exact ⟨st, _, rfl⟩
    · -- this sub-batch is fine; the short frame sits in a later one
      have hlen_sub : ∀ fr ∈ (d0, w0, h0) :: rest',
          w0 * h0 + 2 * (w0 * h0 / 4) ≤ fr.1.length := by
        intro fr hfr
        by_contra hc
        exact hsh ⟨fr, hfr, Nat.lt_of_not_ge hc⟩
      have hsubm : ((d0, w0, h0) :: rest' : List GpuFrame).length ≤ m := by
        rw [← hsub, List.length_take, List.length_drop]
        omega
      have hbound_sub : w0 * h0 * 4 *
          ((d0, w0, h0) :: rest' : List GpuFrame).length < 2 ^ 32 := by
        have h1 : w0 * h0 * 4 * ((d0, w0, h0) :: rest' : List GpuFrame).length
            ≤ w0 * h0 * 4 * m := Nat.mul_le_mul_left _ hsubm
        have h2 : w0 * h0 * 4 * m = m * (w0 * h0 * 4) := by ring
        have h3 : GPU_BUFFER_LIMIT < 2 ^ 32 := by norm_num [GPU_BUFFER_LIMIT]
        omega
      obtain ⟨st1, rs, heq, hwf1, _, _, _, _, _, _, _⟩ :=
        processBatch_ok_spec oracle st d0 w0 h0 rest'
          (fun fr hfr => hdims_sub fr (hsub ▸ hfr)) hlen_sub hwf hbound_sub
      rw [heq]
      dsimp only
      obtain ⟨j, hj, hfr⟩ := hex
      rcases List.mem_cons.mp hj with rfl | hj'
      · -- the short frame would be in this sub-batch: contradiction
        rw [hsub] at hfr
        obtain ⟨fr, hfr', hlt⟩ := hfr
        exact absurd ⟨fr, hfr', hlt⟩ hsh
      · obtain ⟨st2, e, hloop⟩ := ih st1 hwf1
          (fun j' hj'' => hin j' (List.mem_cons_of_mem _ hj''))
          ⟨j, hj', hfr⟩
        rw [hloop]
        exact ⟨st2, e, rfl⟩

/-- A batch containing a too-short frame makes `convert_yuv420p_to_rgb`
return an error (never a partial result), provided the budget admits at
least one frame per sub-batch. -/
lemma convertYuv_short_errors (oracle : DeviceOracle) (st : GpuState)
    (d : List Nat) (w h : Nat) (rest : List GpuFrame)
    (hdims : ∀ fr ∈ (d, w, h) :: rest, fr.2.1 = w ∧ fr.2.2 = h)
    (hwf : GpuWF st) (hwb : w * h * 4 < 2 ^ 32)
    (hm : 0 < maxSingleBatch w h)
    (hshort : ∃ fr ∈ (d, w, h) :: rest,
      fr.1.length < w * h + 2 * (w * h / 4)) :
    ∃ st' e, convertYuv420pToRgb oracle st ((d, w, h) :: rest) =
      some (st', .error e) := by
  have hz : ¬ (w * h * 4) % 2 ^ 32 = 0 := by
    intro h0
    rw [maxSingleBatch, h0] at hm
    simp at hm
  have hmod : (w * h * 4) % 2 ^ 32 = w * h * 4 := Nat.mod_eq_of_lt hwb
  have hall : ((d, w, h) :: rest).all
      (fun fr => fr.2.1 = w ∧ fr.2.2 = h) = true :=
    List.all_eq_true.mpr (fun fr hfr => decide_eq_true (hdims fr hfr))
  have hany : ((d, w, h) :: rest).any
      (fun fr => fr.1.length < w * h + 2 * (w * h / 4)) = true := by
    rw [List.any_eq_true]
    obtain ⟨fr, hfr, hlt⟩ := hshort
    exact ⟨fr, hfr, decide_eq_true hlt⟩
  by_cases hle : ((d, w, h) :: rest).length ≤ maxSingleBatch w h
  · refine ⟨st, "YUV数据长度不足", ?_⟩
    simp only [convertYuv420pToRgb, if_neg hz, if_pos hle]
    exact processBatch_shortData oracle st d w h rest hall hany
  · have hmb : maxSingleBatch w h * (w * h * 4) ≤ GPU_BUFFER_LIMIT := by
      have h1 := maxSingleBatch_mul_le w h
      rw [hmod] at h1
      exact h1
    have hm0 : ¬ maxSingleBatch w h = 0 := by omega
    have hn0 : 0 < ((d, w, h) :: rest).length := by simp
    have hbounds := ceilDiv_bounds ((d, w, h) :: rest).length
      (maxSingleBatch w h) hm hn0
    have hidx : ∀ i ∈ List.range ((((d, w, h) :: rest).length +
        maxSingleBatch w h - 1) / maxSingleBatch w h),
        i * maxSingleBatch w h < ((d, w, h) :: rest).length := by
      intro i hi
      rw [List.mem_range] at hi
      have h1 : i * maxSingleBatch w h ≤
          ((((d, w, h) :: rest).length + maxSingleBatch w h - 1) /
            maxSingleBatch w h - 1) * maxSingleBatch w h :=
        Nat.mul_le_mul_right _ (by omega)
      have h2 : ((((d, w, h) :: rest).length + maxSingleBatch w h - 1) /
          maxSingleBatch w h - 1) * maxSingleBatch w h =
          maxSingleBatch w h *
            ((((d, w, h) :: rest).length + maxSingleBatch w h - 1) /
              maxSingleBatch w h - 1) := by ring
      omega
    have hexchunk : ∃ i ∈ List.range ((((d, w, h) :: rest).length +
        maxSingleBatch w h - 1) / maxSingleBatch w h),
        ∃ fr ∈ (((d, w, h) :: rest).drop (i * maxSingleBatch w h)).take
          (maxSingleBatch w h), fr.1.length < w * h + 2 * (w * h / 4) := by
      obtain ⟨fr, hfr, hlt⟩ := hshort
      have hfl : fr ∈ (chunksOf (maxSingleBatch w h)
          ((d, w, h) :: rest)).flatten := by
        rw [chunksOf_flatten (maxSingleBatch w h) hm]
        exact hfr
      rw [List.mem_flatten] at hfl
      obtain ⟨c, hc, hfrc⟩ := hfl
      rw [chunksOf, List.mem_map] at hc
      obtain ⟨i, hi, rfl⟩ := hc
      exact ⟨i, hi, fr, hfrc, hlt⟩
    obtain ⟨st', e, hloop⟩ := convertLoop_short_errors oracle
      ((d, w, h) :: rest) (maxSingleBatch w h) w h hdims hmb hm
      (List.range ((((d, w, h) :: rest).length + maxSingleBatch w h - 1) /
        maxSingleBatch w h)) st hwf hidx hexchunk
    refine ⟨st', e, ?_⟩
    simp only [convertYuv420pToRgb, if_neg hz, if_neg hle, if_neg hm0]
    exact hloop

/-! ## Index arithmetic and plane-slicing helpers for the manual converter -/

lemma getD_replicate (n a i : Nat) (h : i < n) :
    (List.replicate n a).getD i 0 = a := by
  simp [List.getD, List.getElem?_replicate, h]

lemma yIdx_lt (w h y x : Nat) (hy : y < h) (hx : x < w) :
    y * w + x < w * h := by
  have h1 : (y + 1) * w = y * w + w := by ring
  have h2 : (y + 1) * w ≤ h * w := Nat.mul_le_mul_right _ (by omega)
  have h3 : h * w = w * h := by ring
  omega

lemma uvIdx_lt (w' h' y x : Nat) (hy : y < 2 * h') (hx : x < 2 * w') :
    (y / 2) * ((2 * w') / 2) + x / 2 < (2 * w') * (2 * h') / 4 := by
  have hw2 : (2 * w') / 2 = w' := by omega
  have hq : (2 * w') * (2 * h') / 4 = w' * h' := by
    have h4 : (2 * w') * (2 * h') = 4 * (w' * h') := by ring
    rw [h4, Nat.mul_div_cancel_left _ (by norm_num)]
  rw [hw2, hq]
  have hy2 : y / 2 ≤ h' - 1 := by omega
  have hx2 : x / 2 ≤ w' - 1 := by omega
  have h1 : (y / 2) * w' ≤ (h' - 1) * w' := Nat.mul_le_mul_right _ hy2
  have h3 : w' ≤ h' * w' := Nat.le_mul_of_pos_left _ (by omega)
  have h2 : (h' - 1) * w' + w' = h' * w' := by
    rw [Nat.sub_mul, Nat.one_mul]
    omega
  have hcomm : h' * w' = w' * h' := by ring
  omega

lemma index_decompose (w h j : Nat) (hw : 0 < w) (hj : j < w * h * 3) :
    ∃ y x c, y < h ∧ x < w ∧ c < 3 ∧ j = (y * w + x) * 3 + c := by
  refine ⟨j / 3 / w, j / 3 % w, j % 3, ?_, Nat.mod_lt _ hw, by omega, ?_⟩
  · have hp : j / 3 < w * h := by omega
    rw [Nat.div_lt_iff_lt_mul hw]
    have : h * w = w * h := by ring
    omega
  · have h1 := Nat.div_add_mod (j / 3) w
    have h3 : (j / 3 / w) * w = w * (j / 3 / w) := by ring
    omega

/-- The exact output of a successful `ManualConverter::convert`:
the call succeeds iff the format is 4:2:0 planar and the data long enough,
and then the result is the filled `manualBody` array. -/
lemma manualConvert_ok (f : FrameData) (hfmt : f.format = PixelFormat.yuv420p)
    (hlen : f.width * f.height + 2 * (f.width * f.height / 4) ≤
      f.data.length) :
    manualConvert f = .ok (manualBody f.width f.height
      (f.data.take (f.width * f.height))
      ((f.data.drop (f.width * f.height)).take (f.width * f.height / 4))
      ((f.data.drop (f.width * f.height + f.width * f.height / 4)).take
        (f.width * f.height / 4))) := by
  rw [manualConvert, if_neg (by simp [hfmt]), if_neg (by omega)]

/-! ## Extraction-loop lemmas -/

/-- Once `frame_count` has reached `final_output_frames`, the inner frame
loop does nothing. -/
lemma extInner_stopped (interval : Rat) (final openUntil : Nat)
    (st : ExtState) (l : List Rat) (hst : final ≤ st.frameCount) :
    extInner interval final openUntil st l = st := by
  cases l with
  | nil => rfl
  | cons ts rest =>
    rw [extInner, if_neg (by omega)]

/-- The open-channel invariant: every frame counted so far was sent. -/
def ChanInv (openUntil final : Nat) (st : ExtState) : Prop :=
  st.emitted.length = st.frameCount ∧ st.frameCount ≤ final ∧
    final ≤ openUntil

/-- With the receiver open for at least `final` sends, the inner loop
preserves the invariant. -/
lemma extInner_inv (interval : Rat) (final openUntil : Nat) :
    ∀ (l : List Rat) (st : ExtState), ChanInv openUntil final st →
      ChanInv openUntil final (extInner interval final openUntil st l) := by
  intro l
  induction l with
  | nil => intro st h; exact h
  | cons ts rest ih =>
    intro st h
    obtain ⟨hlen, hle, hopen⟩ := h
    rw [extInner]
    by_cases hc : st.frameCount < final
    · rw [if_pos hc]
      by_cases hx : (if interval = 0 then true
          else decide (st.nextExtractTime ≤ ts)) = true
      · rw [if_pos hx, if_pos (show st.emitted.length < openUntil by omega)]
        by_cases hfin : final ≤ st.frameCount + 1
        · rw [if_pos hfin]
          exact ⟨by simp [hlen], by simp; omega, hopen⟩
        · rw [if_neg hfin]
          exact ih _ ⟨by simp [hlen], by simp; omega, hopen⟩
      · rw [if_neg hx]
        exact ih st ⟨hlen, hle, hopen⟩
    · rw [if_neg hc]
      exact ⟨hlen, hle, hopen⟩

/-- With the receiver open, processing `l₁ ++ l₂` equals processing `l₁`
then `l₂` (no send ever fails, so the only early exit is the frame cap,
which also stops any later processing). -/
lemma extInner_append (interval : Rat) (final openUntil : Nat) :
    ∀ (l₁ l₂ : List Rat) (st : ExtState), ChanInv openUntil final st →
      extInner interval final openUntil st (l₁ ++ l₂) =
        extInner interval final openUntil
          (extInner interval final openUntil st l₁) l₂ := by
  intro l₁
  induction l₁ with
  | nil => intro l₂ st _; rfl
  | cons ts rest ih =>
    intro l₂ st h
    obtain ⟨hlen, hle, hopen⟩ := h
    rw [List.cons_append, extInner, extInner]
    by_cases hc : st.frameCount < final
    · rw [if_pos hc, if_pos hc]
      by_cases hx : (if interval = 0 then true
          else decide (st.nextExtractTime ≤ ts)) = true
      · rw [if_pos hx, if_pos hx,
          if_pos (show st.emitted.length < openUntil by omega),
          if_pos (show st.emitted.length < openUntil by omega)]
        by_cases hfin : final ≤ st.frameCount + 1
        · rw [if_pos hfin, if_pos hfin,
            extInner_stopped _ _ _ _ _ (by simpa using hfin)]
        · rw [if_neg hfin, if_neg hfin]
          exact ih l₂ _ ⟨by simp [hlen], by simp; omega, hopen⟩
      · rw [if_neg hx, if_neg hx]
        exact ih l₂ st ⟨hlen, hle, hopen⟩
    · rw [if_neg hc, if_neg hc]
      rw [extInner_stopped _ _ _ _ _ (by omega)]

/-- With the receiver open, the packet loop equals the frame loop over the
concatenation of all packets. -/
lemma extOuter_eq_inner_flatten (interval : Rat) (final openUntil : Nat) :
    ∀ (pkts : List (List Rat)) (st : ExtState), ChanInv openUntil final st →
      extOuter interval final openUntil st pkts =
        extInner interval final openUntil st pkts.flatten := by
  intro pkts
  induction pkts with
  | nil => intro st _; rfl
  | cons pkt rest ih =>
    intro st h
    rw [extOuter, List.flatten_cons,
      extInner_append interval final openUntil pkt rest.flatten st h]
    by_cases hc : st.frameCount < final
    · rw [if_pos hc]
      by_cases hfin : final ≤ (extInner interval final openUntil st pkt).frameCount
      · rw [if_pos hfin, extInner_stopped _ _ _ _ _ hfin]
      · rw [if_neg hfin]
        exact ih _ (extInner_inv interval final openUntil pkt st h)
    · rw [if_neg hc]
      have hstop : final ≤ st.frameCount := by omega
      rw [extInner_stopped _ _ _ _ _ hstop, if_pos hstop,
        extInner_stopped _ _ _ _ _ hstop]

/-- When `cap ≤ k` the spec-side filter emits nothing. -/
lemma specThresholdFilter_capped (Δ : Rat) (cap : Nat) (th : Rat) (k : Nat)
    (l : List Rat) (h : cap ≤ k) :
    specThresholdFilter Δ cap th k l = [] := by
  cases l with
  | nil => rfl
  | cons ts rest => rw [specThresholdFilter, if_pos h]

/-- With a positive interval and an open channel, the timestamps the inner
loop emits are exactly the spec's running-threshold filter. -/
lemma extInner_emits_spec (interval : Rat) (final openUntil : Nat)
    (hpos : 0 < interval) :
    ∀ (l : List Rat) (st : ExtState), ChanInv openUntil final st →
      (extInner interval final openUntil st l).emitted.map Prod.snd =
        st.emitted.map Prod.snd ++
          specThresholdFilter interval final st.nextExtractTime
            st.frameCount l := by
  intro l
  induction l with
  | nil => intro st _; simp [extInner, specThresholdFilter]
  | cons ts rest ih =>
    intro st h
    obtain ⟨hlen, hle, hopen⟩ := h
    rw [extInner, specThresholdFilter]
    by_cases hc : st.frameCount < final
    · rw [if_pos hc, if_neg (show ¬ final ≤ st.frameCount by omega)]
      have hiz : ¬ interval = 0 := ne_of_gt hpos
      by_cases hts : st.nextExtractTime ≤ ts
      · have hx : (if interval = 0 then true
            else decide (st.nextExtractTime ≤ ts)) = true := by
          rw [if_neg hiz, decide_eq_true hts]
        rw [if_pos hx, if_pos hts,
          if_pos (show st.emitted.length < openUntil by omega)]
        by_cases hfin : final ≤ st.frameCount + 1
        · rw [if_pos hfin,
            specThresholdFilter_capped _ _ _ _ _ (by omega)]
          simp [advanceTime, if_pos hpos]
        · rw [if_neg hfin,
            ih _ ⟨by simp [hlen], by simp; omega, hopen⟩]
          simp [advanceTime, if_pos hpos]
      · have hx : ¬ ((if interval = 0 then true
            else decide (st.nextExtractTime ≤ ts)) = true) := by
          rw [if_neg hiz, decide_eq_false hts]
          exact Bool.false_ne_true
        rw [if_neg hx, if_neg hts]
        exact ih st ⟨hlen, hle, hopen⟩
    · rw [if_neg hc, if_pos (by omega)]
      simp

/-! ## Claim theorems -/

/-- C10: for every non-empty batch whose per-frame RGBA footprint makes the
computed `max_single_batch` truncate to 0, `convert_yuv420p_to_rgb` panics
(divides by zero computing `sub_batches`) instead of returning an error
result; the splitting path is not total without `max_single_batch ≥ 1`.
(`none` is the panic; the hypothesis also covers the wrapped-footprint-zero
case, where the `u64` division itself panics.) -/
theorem c10_zero_max_single_batch_panics (oracle : DeviceOracle)
    (st : GpuState) (d : List Nat) (w h : Nat) (rest : List GpuFrame)
    (hmax : maxSingleBatch w h = 0) :
    convertYuv420pToRgb oracle st ((d, w, h) :: rest) = none := by
  simp only [convertYuv420pToRgb, hmax]
  by_cases hz : (w * h * 4) % 2 ^ 32 = 0
  · simp [hz]
  · simp [hz]

/-- Witness for C10: a single 8192×8192 frame (footprint 256 MiB > the
128 MiB ceiling, so `max_single_batch = 0`) makes the engine panic. -/
theorem c10_zero_max_single_batch_panics_witness :
    maxSingleBatch 8192 8192 = 0 ∧
    convertYuv420pToRgb (fun _ _ => 0) initialGpuState
      [([], 8192, 8192)] = none :=
  ⟨by decide,
    c10_zero_max_single_batch_panics (fun _ _ => 0) initialGpuState
      [] 8192 8192 [] (by decide)⟩

/-- C1: for a non-empty batch of frames whose head has size `(w, h)` with
`max_single_batch = m ≥ 1` and more than `m` frames, the engine partitions
the batch into `⌈n/m⌉` consecutive sub-batches of size `m` (only the last
smaller), processes them strictly in sequence threading the engine state,
and concatenates the per-sub-batch results in original input order
(`processSeq` over `chunksOf`); the sub-batches are slices of the input in
order and their concatenation is exactly the input. -/
theorem c1_memory_budget_splitting (oracle : DeviceOracle) (st : GpuState)
    (d : List Nat) (w h : Nat) (rest : List GpuFrame) (m n k : Nat)
    (hm : m = maxSingleBatch w h)
    (hn : n = ((d, w, h) :: rest : List GpuFrame).length)
    (hk : k = (n + m - 1) / m)
    (hm1 : 1 ≤ m) (hnm : m < n) :
    convertYuv420pToRgb oracle st ((d, w, h) :: rest) =
        processSeq oracle st (chunksOf m ((d, w, h) :: rest)) ∧
    (chunksOf m ((d, w, h) :: rest)).length = k ∧
    (n ≤ m * k ∧ m * (k - 1) < n) ∧
    (∀ i, i + 1 < k →
      ((chunksOf m ((d, w, h) :: rest)).getD i []).length = m) ∧
    ((chunksOf m ((d, w, h) :: rest)).getD (k - 1) []).length =
      n - m * (k - 1) ∧
    (chunksOf m ((d, w, h) :: rest)).flatten = (d, w, h) :: rest := by
  have hm0 : 0 < m := hm1
  have hn0 : 0 < n := by omega
  have hbounds := ceilDiv_bounds n m hm0 hn0
  rw [← hk] at hbounds
  have hupper := hbounds.1
  have hlower := hbounds.2
  refine ⟨?_, ?_, ⟨hupper, hlower⟩, ?_, ?_, ?_⟩
  · -- the engine equals sequential chunk processing
    have hz : ¬ (w * h * 4) % 2 ^ 32 = 0 := by
      intro h0
      rw [hm, maxSingleBatch, h0] at hm1
      simp at hm1
    have hle : ¬ ((d, w, h) :: rest : List GpuFrame).length ≤
        maxSingleBatch w h := by omega
    have hmz : ¬ maxSingleBatch w h = 0 := by omega
    simp only [convertYuv420pToRgb, if_neg hz, if_neg hle, if_neg hmz]
    rw [convertLoop_eq_processSeq]
    congr 1
    rw [chunksOf, ← hn, ← hm, ← hk]
    apply List.map_congr_left
    intro i hi
    rw [List.mem_range] at hi
    have him : i * m < n := by
      have h1 : i * m ≤ (k - 1) * m := Nat.mul_le_mul_right m (by omega)
      have h2 : (k - 1) * m = m * (k - 1) := by ring
      omega
    rw [hn] at him
    rw [hn]
    exact slice_take_m ((d, w, h) :: rest) m i hm0 him
  · rw [chunksOf_length, ← hn, ← hk]
  · -- every sub-batch before the last has exactly m frames
    intro i hi
    have hik : i < (((d, w, h) :: rest : List GpuFrame).length + m - 1) / m :=
      by rw [← hn, ← hk]; omega
    rw [chunksOf_size_eq m _ i hik, ← hn]
    have h1 : (i + 1) * m ≤ (k - 1) * m := Nat.mul_le_mul_right m (by omega)
    have h2 : (k - 1) * m = m * (k - 1) := by ring
    have h3 : (i + 1) * m = i * m + m := by ring
    omega
  · -- the last sub-batch holds the remaining n - m*(k-1) frames
    have hk1 : 1 ≤ k := by
      by_contra hc
      push_neg at hc
      interval_cases k
      simp at hupper
      omega
    have hik : k - 1 <
        (((d, w, h) :: rest : List GpuFrame).length + m - 1) / m := by
      rw [← hn, ← hk]; omega
    rw [chunksOf_size_eq m _ (k - 1) hik, ← hn]
    have h2 : (k - 1) * m = m * (k - 1) := by ring
    have h4 : m * k = m * (k - 1) + m := by
      conv_lhs => rw [show k = (k - 1) + 1 by omega]
      ring
    omega
  · exact chunksOf_flatten m hm0 _

/-- Witness for C1: twelve 2236×2236 frames with `max_single_batch = 5`
split into exactly 3 sub-batches of sizes 5, 5, 2, in that order. -/
theorem c1_memory_budget_splitting_witness :
    (1 ≤ maxSingleBatch 2236 2236 ∧ maxSingleBatch 2236 2236 < 12) ∧
    (convertYuv420pToRgb (fun _ _ => 0) initialGpuState
        (([], 2236, 2236) :: List.replicate 11 (([] : List Nat), 2236, 2236)) =
      processSeq (fun _ _ => 0) initialGpuState
        (chunksOf 5
          (([], 2236, 2236) :: List.replicate 11 (([] : List Nat), 2236, 2236))) ∧
      (chunksOf 5 (([], 2236, 2236) ::
        List.replicate 11 (([] : List Nat), 2236, 2236))).length = 3 ∧
      (12 ≤ 5 * 3 ∧ 5 * (3 - 1) < 12) ∧
      (∀ i, i + 1 < 3 →
        ((chunksOf 5 (([], 2236, 2236) ::
          List.replicate 11 (([] : List Nat), 2236, 2236))).getD i []).length = 5) ∧
      ((chunksOf 5 (([], 2236, 2236) ::
        List.replicate 11 (([] : List Nat), 2236, 2236))).getD (3 - 1) []).length =
        12 - 5 * (3 - 1) ∧
      (chunksOf 5 (([], 2236, 2236) ::
        List.replicate 11 (([] : List Nat), 2236, 2236))).flatten =
        ([], 2236, 2236) :: List.replicate 11 (([] : List Nat), 2236, 2236)) ∧
    (chunksOf 5 (([], 2236, 2236) ::
      List.replicate 11 (([] : List Nat), 2236, 2236))).map List.length =
      [5, 5, 2] :=
  ⟨⟨by decide, by decide⟩,
    c1_memory_budget_splitting (fun _ _ => 0) initialGpuState
      [] 2236 2236 (List.replicate 11 (([] : List Nat), 2236, 2236))
      5 12 3 (by decide) (by decide) (by decide) (by decide) (by decide),
    by decide⟩

/-- C4 counterexample: after a batch of two 2×2 frames is processed
(allocating buffers for `(batch_size, width, height) = (2, 2, 2)`), a
second batch with the different triple `(1, 2, 2)` leaves the engine state
— allocation count included — completely unchanged, so buffers are NOT
reallocated whenever the `(batch_size, width, height)` triple differs. -/
theorem c4_counterexample_smaller_batch_no_realloc :
    (processBatch (fun _ _ => 0) initialGpuState
        [(List.replicate 6 0, 2, 2), (List.replicate 6 0, 2, 2)]).map
      (fun p => p.1) =
      some ⟨some (2, 2), some 8, some 4, some 4, some 32, some 32, 2, 1⟩ ∧
    (processBatch (fun _ _ => 0)
        ⟨some (2, 2), some 8, some 4, some 4, some 32, some 32, 2, 1⟩
        [(List.replicate 6 0, 2, 2)]).map (fun p => p.1) =
      some ⟨some (2, 2), some 8, some 4, some 4, some 32, some 32, 2, 1⟩ ∧
    (1 : Nat) ≠ (2 : Nat) := by
  decide

/-- C4 (amended): on a valid batch, the buffer set is (re)allocated exactly
when there is no sufficient cached set — `capacity < batch_size` — or the
cached `(width, height)` differs from the incoming one; the resulting state
is `createBuffers` for the incoming shape in that case and is the old state,
every buffer field unchanged, otherwise.  `createBuffers` bumps the
allocation counter by one. -/
theorem c4_buffer_reuse_characterization (oracle : DeviceOracle)
    (st : GpuState) (d : List Nat) (w h : Nat) (rest : List GpuFrame)
    (huni : ∀ fr ∈ (d, w, h) :: rest, fr.2.1 = w ∧ fr.2.2 = h)
    (hlen : ∀ fr ∈ (d, w, h) :: rest, w * h + 2 * (w * h / 4) ≤ fr.1.length)
    (hwf : GpuWF st) :
    (processBatch oracle st ((d, w, h) :: rest)).map (fun p => p.1) =
      some (if st.capacity < ((d, w, h) :: rest).length ∨
          st.cachedSize ≠ some (w, h)
        then createBuffers st ((d, w, h) :: rest).length w h else st) ∧
    ∀ b : Nat, (createBuffers st b w h).allocations = st.allocations + 1 := by
  have hall : ((d, w, h) :: rest).all
      (fun fr => fr.2.1 = w ∧ fr.2.2 = h) = true :=
    List.all_eq_true.mpr (fun fr hfr => decide_eq_true (huni fr hfr))
  have hany : ((d, w, h) :: rest).any
      (fun fr => fr.1.length < w * h + 2 * (w * h / 4)) = false := by
    simp only [List.any_eq_false, decide_eq_true_eq]
    intro fr hfr
    exact Nat.not_lt.mpr (hlen fr hfr)
  refine ⟨?_, fun b => by simp [createBuffers]⟩
  by_cases hneed : st.capacity < ((d, w, h) :: rest).length ∨
      st.cachedSize ≠ some (w, h)
  · rw [processBatch_realloc oracle st d w h rest hall hany hneed,
      if_pos hneed]
    rfl
  · rw [processBatch_reuse oracle st d w h rest hall hany hneed hwf,
      if_neg hneed]
    rfl

/-- Witness for C4 (amended): a first 2×2 single-frame batch on a fresh
engine reallocates (no cached set yet). -/
theorem c4_buffer_reuse_characterization_witness :
    (∀ fr ∈ [((List.replicate 6 0 : List Nat), 2, 2)],
      fr.2.1 = 2 ∧ fr.2.2 = 2) ∧
    (processBatch (fun _ _ => 0) initialGpuState
        [(List.replicate 6 0, 2, 2)]).map (fun p => p.1) =
      some (if initialGpuState.capacity <
            ([((List.replicate 6 0 : List Nat), 2, 2)] : List GpuFrame).length ∨
          initialGpuState.cachedSize ≠ some (2, 2)
        then createBuffers initialGpuState 1 2 2 else initialGpuState) :=
  ⟨by decide,
    ((c4_buffer_reuse_characterization (fun _ _ => 0) initialGpuState
      (List.replicate 6 0) 2 2 [] (by decide) (by decide) gpuWF_initial).1)⟩

/-- C2 counterexample: the GPU variant's `convert` accepts a frame whose
`pixel_format` is not 4:2:0 planar (here RGB24) and returns converted
bytes instead of an error. -/
theorem c2_counterexample_gpu_accepts_non_yuv420p :
    PixelFormat.rgb24 ≠ PixelFormat.yuv420p ∧
    (wgpuBatchConvert (fun _ _ => 0) false
        ⟨some initialGpuState, [], 1⟩
        ⟨0, 2, 2, List.replicate 6 100, PixelFormat.rgb24⟩).map
      (fun p => p.2) = some (.ok (List.replicate 12 0)) :=
  ⟨by decide, by rfl⟩

/-- C2 (amended): the reference-math, vision-library and SIMD-library
variants reject any `pixel_format` other than 4:2:0 planar with a
descriptive error; the native-codec-scaler variant performs no 4:2:0 check
of its own (it hands any format to the external scaler and returns its
output), and the GPU variant ignores `pixel_format` entirely (its result is
the same as for the identical frame relabelled YUV420P). -/
theorem c2_non_yuv420p_rejection_by_variant (f : FrameData)
    (hfmt : f.format ≠ PixelFormat.yuv420p)
    (cvOk : Except String Unit) (cvLen : Nat) (cv : Nat → Nat)
    (lib : YuvPlanarImage → (buf : List Nat) →
      Except String { l : List Nat // l.length = buf.length })
    (scalerInit : PixelFormat → Nat → Nat → Except String Unit)
    (scaled : Nat → Nat) (oracle : DeviceOracle) (t : Bool)
    (pool : WgpuBatchPool) :
    manualConvert f = .error "Manual converter only supports YUV420P format" ∧
    opencvConvert cvOk cvLen cv f =
      .error "OpenCV converter only supports YUV420P format" ∧
    yuvutilsConvert lib f =
      .error "Yuvutils converter only supports YUV420P format" ∧
    (scalerInit f.format f.width f.height = .ok () →
      ffmpegConvert scalerInit scaled f =
        .ok ((List.range (f.width * f.height * 3)).map
          fun i => scaled i % 256)) ∧
    wgpuBatchConvert oracle t pool f =
      wgpuBatchConvert oracle t pool { f with format := PixelFormat.yuv420p } := by
  refine ⟨?_, ?_, ?_, ?_, rfl⟩
  · rw [manualConvert, if_pos hfmt]
  · rw [opencvConvert.eq_def, if_pos hfmt]
  · rw [yuvutilsConvert.eq_def, if_pos hfmt]
  · intro hinit
    rw [ffmpegConvert.eq_def, hinit]
    simp [hfmt]

lemma manualPixel_white : manualPixel 235 128 128 = (235, 235, 235) := by
  norm_num [manualPixel, asU8, rustClamp]
  all_goals rfl

/-- C6 counterexample: on the 2×2 frame with Y ≡ 0, U = 35, V = 128, the
code's G byte at output offset 1 is 32 (coefficient 0.344136), while the
claimed formula `G = Y - 0.344*(U-128) - 0.714*(V-128)` gives 31. -/
theorem c6_counterexample_g_coefficient :
    (manualConvert
        ⟨0, 2, 2, [0, 0, 0, 0, 35, 128], PixelFormat.yuv420p⟩).toOption.map
      (fun l => l.getD 1 0) = some 32 ∧
    (specClaimPixel 0 35 128).2.1 = 31 ∧ (32 : Nat) ≠ 31 := by
  refine ⟨?_, ?_, by decide⟩
  · rw [manualConvert_ok ⟨0, 2, 2, [0, 0, 0, 0, 35, 128],
      PixelFormat.yuv420p⟩ rfl (by norm_num)]
    simp only [Except.toOption, Option.map]
    congr 1
    rw [show (1 : Nat) = (0 * 2 + 0) * 3 + 1 by norm_num] at *
    rw [manualBody_getD 2 2 _ _ _ _ (by norm_num)]
    rw [outByte_decode 2 0 0 1 (by norm_num) (by norm_num)]
    norm_num [manualPixel, asU8, rustClamp, List.getD]
    rfl
  · norm_num [specClaimPixel, asU8, rustClamp]
    rfl

/-- C6 (amended): on every valid 4:2:0 frame with even dimensions, the
manual converter succeeds and stores, at output offset `(y*width + x)*3`
in channel order R, G, B, the clamped bytes
`R = Y + 1.402*(V-128)`, `G = Y - 0.344136*(U-128) - 0.714136*(V-128)`,
`B = Y + 1.772*(U-128)`, with Y read at index `y*width + x`, and U, V read
at plane offsets `w*h + uvIdx` and `w*h + w*h/4 + uvIdx` for
`uvIdx = (y/2)*(width/2) + x/2`.  (The claim's coefficients 0.344 and
0.714 are amended to the source's 0.344136 and 0.714136.) -/
theorem c6_manual_reference_formula (f : FrameData) (w' h' : Nat)
    (hfmt : f.format = PixelFormat.yuv420p)
    (hw : f.width = 2 * w') (hh : f.height = 2 * h')
    (hdlen : f.width * f.height + 2 * (f.width * f.height / 4) ≤
      f.data.length)
    (y x : Nat) (hy : y < f.height) (hx : x < f.width)
    (Yv Uv Vv uvIdx : Nat)
    (huv : uvIdx = y / 2 * (f.width / 2) + x / 2)
    (hYv : Yv = f.data.getD (y * f.width + x) 0)
    (hUv : Uv = f.data.getD (f.width * f.height + uvIdx) 0)
    (hVv : Vv = f.data.getD (f.width * f.height + f.width * f.height / 4 +
      uvIdx) 0) :
    ∃ out, manualConvert f = .ok out ∧
      out.length = f.width * f.height * 3 ∧
      out.getD ((y * f.width + x) * 3) 0 =
        asU8 (rustClamp ((Yv : Rat) + 1.402 * ((Vv : Rat) - 128)) 0 255) ∧
      out.getD ((y * f.width + x) * 3 + 1) 0 =
        asU8 (rustClamp ((Yv : Rat) - 0.344136 * ((Uv : Rat) - 128) -
          0.714136 * ((Vv : Rat) - 128)) 0 255) ∧
      out.getD ((y * f.width + x) * 3 + 2) 0 =
        asU8 (rustClamp ((Yv : Rat) + 1.772 * ((Uv : Rat) - 128)) 0 255) := by
  subst hYv hUv hVv huv
  have hyx : y * f.width + x < f.width * f.height := yIdx_lt _ _ _ _ hy hx
  have huvlt : y / 2 * (f.width / 2) + x / 2 < f.width * f.height / 4 := by
    rw [hw, hh]
    exact uvIdx_lt w' h' y x (hh ▸ hy) (hw ▸ hx)
  have key : ∀ c, c < 3 →
      (manualBody f.width f.height (f.data.take (f.width * f.height))
        ((f.data.drop (f.width * f.height)).take (f.width * f.height / 4))
        ((f.data.drop (f.width * f.height + f.width * f.height / 4)).take
          (f.width * f.height / 4))).getD ((y * f.width + x) * 3 + c) 0 =
      (fun rgb => if c = 0 then rgb.1 else if c = 1 then rgb.2.1 else rgb.2.2)
        (manualPixel (f.data.getD (y * f.width + x) 0)
          (f.data.getD (f.width * f.height +
            (y / 2 * (f.width / 2) + x / 2)) 0)
          (f.data.getD (f.width * f.height + f.width * f.height / 4 +
            (y / 2 * (f.width / 2) + x / 2)) 0)) := by
    intro c hc
    have hj : (y * f.width + x) * 3 + c < f.width * f.height * 3 := by omega
    rw [manualBody_getD _ _ _ _ _ _ hj, outByte_decode _ y x c hx hc,
      getD_take f.data (f.width * f.height) _ hyx,
      getD_drop_take f.data (f.width * f.height)
        (f.width * f.height / 4) _ huvlt,
      getD_drop_take f.data (f.width * f.height + f.width * f.height / 4)
        (f.width * f.height / 4) _ huvlt]
  refine ⟨_, manualConvert_ok f hfmt hdlen, length_manualBody _ _ _ _ _,
    ?_, ?_, ?_⟩
  · have h0 := key 0 (by norm_num)
    simp only [Nat.add_zero] at h0
    rw [h0]
    simp [manualPixel]
  · have h1 := key 1 (by norm_num)
    rw [h1]
    simp [manualPixel]
  · have h2 := key 2 (by norm_num)
    rw [h2]
    simp [manualPixel]

/-- Witness for C6 (amended), at a concrete 2×2 frame with a gradient. -/
theorem c6_manual_reference_formula_witness :
    ∃ out, manualConvert
        ⟨0, 2, 2, [10, 20, 30, 40, 90, 200], PixelFormat.yuv420p⟩ = .ok out ∧
      out.length = 2 * 2 * 3 ∧
      out.getD ((0 * 2 + 0) * 3) 0 =
        asU8 (rustClamp ((10 : Rat) + 1.402 * ((200 : Rat) - 128)) 0 255) ∧
      out.getD ((0 * 2 + 0) * 3 + 1) 0 =
        asU8 (rustClamp ((10 : Rat) - 0.344136 * ((90 : Rat) - 128) -
          0.714136 * ((200 : Rat) - 128)) 0 255) ∧
      out.getD ((0 * 2 + 0) * 3 + 2) 0 =
        asU8 (rustClamp ((10 : Rat) + 1.772 * ((90 : Rat) - 128)) 0 255) :=
  c6_manual_reference_formula
    ⟨0, 2, 2, [10, 20, 30, 40, 90, 200], PixelFormat.yuv420p⟩ 1 1 rfl
    (by decide) (by decide) (by decide) 0 0 (by decide) (by decide)
    10 90 200 0 (by decide) (by decide) (by decide) (by decide)

/-- C5 counterexample: the manual converter maps the constant frame
Y = 235, U = V = 128 to the byte 235 on every channel — here the first
output byte — and 235 does not lie in `[250, 255]`. -/
theorem c5_counterexample_white_not_clamped_to_250_255 :
    (manualConvert ⟨0, 2, 2, [235, 235, 235, 235, 128, 128],
        PixelFormat.yuv420p⟩).toOption.map
      (fun l => l.getD 0 0) = some 235 ∧
    ¬ (250 ≤ (235 : Nat) ∧ (235 : Nat) ≤ 255) := by
  refine ⟨?_, by decide⟩
  rw [manualConvert_ok ⟨0, 2, 2, [235, 235, 235, 235, 128, 128],
    PixelFormat.yuv420p⟩ rfl (by norm_num)]
  simp only [Except.toOption, Option.map]
  congr 1
  rw [show (0 : Nat) = (0 * 2 + 0) * 3 + 0 by norm_num] at *
  rw [manualBody_getD 2 2 _ _ _ _ (by norm_num)]
  rw [outByte_decode 2 0 0 0 (by norm_num) (by norm_num)]
  norm_num [manualPixel, asU8, rustClamp, List.getD]
  rfl

/-- C5 (amended): for every even-dimension frame filled with constant
Y = 235, U = 128, V = 128 the manual converter succeeds and every byte of
every channel equals 235 exactly (the transform is full-range: neutral
chroma maps Y to itself), rather than lying in `[250, 255]`. -/
theorem c5_white_frame_constant_235 (w' h' n : Nat)
    (hw' : 0 < w') (hh' : 0 < h') :
    ∃ out, manualConvert ⟨n, 2 * w', 2 * h',
        List.replicate (2 * w' * (2 * h')) 235 ++
          (List.replicate (2 * w' * (2 * h') / 4) 128 ++
            List.replicate (2 * w' * (2 * h') / 4) 128),
        PixelFormat.yuv420p⟩ = .ok out ∧
      out.length = 2 * w' * (2 * h') * 3 ∧
      ∀ j, j < 2 * w' * (2 * h') * 3 → out.getD j 0 = 235 := by
  have hlen : (List.replicate (2 * w' * (2 * h')) 235 ++
      (List.replicate (2 * w' * (2 * h') / 4) 128 ++
        List.replicate (2 * w' * (2 * h') / 4) 128)).length =
      2 * w' * (2 * h') + (2 * w' * (2 * h') / 4 +
        2 * w' * (2 * h') / 4) := by
    simp
  have hdlen : (2 * w') * (2 * h') + 2 * ((2 * w') * (2 * h') / 4) ≤
      (List.replicate (2 * w' * (2 * h')) 235 ++
        (List.replicate (2 * w' * (2 * h') / 4) 128 ++
          List.replicate (2 * w' * (2 * h') / 4) 128)).length := by
    rw [hlen]
    omega
  have hyP : (List.replicate (2 * w' * (2 * h')) 235 ++
      (List.replicate (2 * w' * (2 * h') / 4) 128 ++
        List.replicate (2 * w' * (2 * h') / 4) 128)).take
      (2 * w' * (2 * h')) = List.replicate (2 * w' * (2 * h')) 235 :=
    List.take_left' (by simp)
  have hdrop : (List.replicate (2 * w' * (2 * h')) 235 ++
      (List.replicate (2 * w' * (2 * h') / 4) 128 ++
        List.replicate (2 * w' * (2 * h') / 4) 128)).drop
      (2 * w' * (2 * h')) =
      List.replicate (2 * w' * (2 * h') / 4) 128 ++
        List.replicate (2 * w' * (2 * h') / 4) 128 :=
    List.drop_left' (by simp)
  have huP : ((List.replicate (2 * w' * (2 * h')) 235 ++
      (List.replicate (2 * w' * (2 * h') / 4) 128 ++
        List.replicate (2 * w' * (2 * h') / 4) 128)).drop
      (2 * w' * (2 * h'))).take (2 * w' * (2 * h') / 4) =
      List.replicate (2 * w' * (2 * h') / 4) 128 := by
    rw [hdrop]
    exact List.take_left' (by simp)
  have hvP : ((List.replicate (2 * w' * (2 * h')) 235 ++
      (List.replicate (2 * w' * (2 * h') / 4) 128 ++
        List.replicate (2 * w' * (2 * h') / 4) 128)).drop
      (2 * w' * (2 * h') + 2 * w' * (2 * h') / 4)).take
      (2 * w' * (2 * h') / 4) =
      List.replicate (2 * w' * (2 * h') / 4) 128 := by
    rw [← List.drop_drop, hdrop, List.drop_left' (by simp)]
    exact List.take_of_length_le (by simp)
  refine ⟨_, manualConvert_ok _ rfl hdlen, length_manualBody _ _ _ _ _, ?_⟩
  dsimp only
  intro j hj
  have hw0 : 0 < 2 * w' := by omega
  obtain ⟨y, x, c, hy, hx, hc, rfl⟩ :=
    index_decompose (2 * w') (2 * h') j hw0 hj
  have hyx : y * (2 * w') + x < 2 * w' * (2 * h') := yIdx_lt _ _ _ _ hy hx
  have huvlt : y / 2 * (2 * w' / 2) + x / 2 < 2 * w' * (2 * h') / 4 :=
    uvIdx_lt w' h' y x hy hx
  rw [manualBody_getD _ _ _ _ _ _ (by omega),
    outByte_decode _ y x c hx hc, hyP, huP, hvP,
    getD_replicate _ _ _ hyx, getD_replicate _ _ _ huvlt,
    manualPixel_white]
  interval_cases c <;> rfl

/-- Witness for C5 (amended), at the concrete 2×2 white-ish frame. -/
theorem c5_white_frame_constant_235_witness :
    (0 < 1 ∧ 0 < 1) ∧
    ∃ out, manualConvert ⟨0, 2 * 1, 2 * 1,
        List.replicate (2 * 1 * (2 * 1)) 235 ++
          (List.replicate (2 * 1 * (2 * 1) / 4) 128 ++
            List.replicate (2 * 1 * (2 * 1) / 4) 128),
        PixelFormat.yuv420p⟩ = .ok out ∧
      out.length = 2 * 1 * (2 * 1) * 3 ∧
      ∀ j, j < 2 * 1 * (2 * 1) * 3 → out.getD j 0 = 235 :=
  ⟨by decide, c5_white_frame_constant_235 1 1 0 (by decide) (by decide)⟩

/-- Witness for C2 (amended), at a concrete RGB24 frame. -/
theorem c2_non_yuv420p_rejection_by_variant_witness :
    ((PixelFormat.rgb24 ≠ PixelFormat.yuv420p) : Prop) ∧
    (manualConvert ⟨0, 2, 2, List.replicate 6 100, PixelFormat.rgb24⟩ =
      .error "Manual converter only supports YUV420P format" ∧
    opencvConvert (.ok ()) 12 (fun _ => 0)
        ⟨0, 2, 2, List.replicate 6 100, PixelFormat.rgb24⟩ =
      .error "OpenCV converter only supports YUV420P format" ∧
    yuvutilsConvert (fun _ buf => .ok ⟨buf, rfl⟩)
        ⟨0, 2, 2, List.replicate 6 100, PixelFormat.rgb24⟩ =
      .error "Yuvutils converter only supports YUV420P format" ∧
    ((fun _ _ _ => Except.ok ()) PixelFormat.rgb24 (2 : Nat) (2 : Nat) =
        (.ok () : Except String Unit) →
      ffmpegConvert (fun _ _ _ => .ok ()) (fun _ => 0)
          ⟨0, 2, 2, List.replicate 6 100, PixelFormat.rgb24⟩ =
        .ok ((List.range (2 * 2 * 3)).map fun i => (fun _ => 0) i % 256)) ∧
    wgpuBatchConvert (fun _ _ => 0) false ⟨some initialGpuState, [], 1⟩
        ⟨0, 2, 2, List.replicate 6 100, PixelFormat.rgb24⟩ =
      wgpuBatchConvert (fun _ _ => 0) false ⟨some initialGpuState, [], 1⟩
        { (⟨0, 2, 2, List.replicate 6 100, PixelFormat.rgb24⟩ : FrameData)
          with format := PixelFormat.yuv420p }) :=
  ⟨by decide,
    c2_non_yuv420p_rejection_by_variant
      ⟨0, 2, 2, List.replicate 6 100, PixelFormat.rgb24⟩ (by decide)
      (.ok ()) 12 (fun _ => 0) (fun _ buf => .ok ⟨buf, rfl⟩)
      (fun _ _ _ => .ok ()) (fun _ => 0) (fun _ _ => 0) false
      ⟨some initialGpuState, [], 1⟩⟩

/-- C8: every converter variant that returns `Ok` on a 4:2:0 input returns
RGB data of length exactly `width*height*3` — the reference-math,
native-codec-scaler, vision-library and SIMD-library variants per frame,
and the GPU engine for every frame of a (uniform-resolution) batch. -/
theorem c8_ok_output_length_all_variants (f : FrameData)
    (scalerInit : PixelFormat → Nat → Nat → Except String Unit)
    (scaled : Nat → Nat)
    (cvOk : Except String Unit) (cvLen : Nat) (cv : Nat → Nat)
    (lib : YuvPlanarImage → (buf : List Nat) →
      Except String { l : List Nat // l.length = buf.length })
    (oracle : DeviceOracle) (st : GpuState) (d : List Nat) (w h : Nat)
    (rest : List GpuFrame)
    (hdims : ∀ fr ∈ (d, w, h) :: rest, fr.2.1 = w ∧ fr.2.2 = h)
    (hwf : GpuWF st) (hwb : w * h * 4 < 2 ^ 32) :
    (∀ out, manualConvert f = .ok out →
      out.length = f.width * f.height * 3) ∧
    (∀ out, ffmpegConvert scalerInit scaled f = .ok out →
      out.length = f.width * f.height * 3) ∧
    (∀ out, opencvConvert cvOk cvLen cv f = .ok out →
      out.length = f.width * f.height * 3) ∧
    (∀ out, yuvutilsConvert lib f = .ok out →
      out.length = f.width * f.height * 3) ∧
    (∀ st' results, convertYuv420pToRgb oracle st ((d, w, h) :: rest) =
        some (st', .ok results) →
      ∀ r ∈ results, r.length = w * h * 3) := by
  refine ⟨?_, ?_, ?_, ?_, ?_⟩
  · intro out hout
    simp only [manualConvert] at hout
    by_cases h1 : f.format ≠ PixelFormat.yuv420p
    · rw [if_pos h1] at hout
      exact absurd hout (by simp)
    · rw [if_neg h1] at hout
      by_cases h2 : f.data.length <
          f.width * f.height + 2 * (f.width * f.height / 4)
      · rw [if_pos h2] at hout
        exact absurd hout (by simp)
      · rw [if_neg h2] at hout
        simp only [Except.ok.injEq] at hout
        rw [← hout]
        exact length_manualBody _ _ _ _ _
  · intro out hout
    rw [ffmpegConvert.eq_def] at hout
    cases hs : scalerInit f.format f.width f.height with
    | error e =>
      rw [hs] at hout
      exact absurd hout (by simp)
    | ok u =>
      rw [hs] at hout
      dsimp only at hout
      by_cases h1 : f.format = PixelFormat.yuv420p
      · rw [if_pos h1] at hout
        by_cases h2 : f.data.length <
            f.width * f.height + 2 * (f.width * f.height / 4)
        · rw [if_pos h2] at hout
          exact absurd hout (by simp)
        · rw [if_neg h2] at hout
          simp only [Except.ok.injEq] at hout
          rw [← hout]
          simp
      · rw [if_neg h1] at hout
        simp only [Except.ok.injEq] at hout
        rw [← hout]
        simp
  · intro out hout
    rw [opencvConvert.eq_def] at hout
    by_cases h1 : f.format ≠ PixelFormat.yuv420p
    · rw [if_pos h1] at hout
      exact absurd hout (by simp)
    · rw [if_neg h1] at hout
      by_cases h2 : f.data.length <
          f.width * f.height + 2 * (f.width * f.height / 4)
      · rw [if_pos h2] at hout
        exact absurd hout (by simp)
      · rw [if_neg h2] at hout
        cases cvOk with
        | error e =>
          dsimp only at hout
          exact absurd hout (by simp)
        | ok u =>
          dsimp only at hout
          by_cases h3 : f.width * f.height * 3 ≤
              ((List.range cvLen).map fun i => cv i % 256).length
          · rw [if_pos h3] at hout
            simp only [Except.ok.injEq] at hout
            rw [← hout]
            simp only [List.length_take, List.length_map, List.length_range]
            simp only [List.length_map, List.length_range] at h3
            omega
          · rw [if_neg h3] at hout
            exact absurd hout (by simp)
  · intro out hout
    rw [yuvutilsConvert.eq_def] at hout
    by_cases h1 : f.format ≠ PixelFormat.yuv420p
    · rw [if_pos h1] at hout
      exact absurd hout (by simp)
    · rw [if_neg h1] at hout
      by_cases h2 : f.data.length <
          f.width * f.height + 2 * (f.width * f.height / 4)
      · rw [if_pos h2] at hout
        exact absurd hout (by simp)
      · rw [if_neg h2] at hout
        dsimp only at hout
        cases hlib : lib
            { yPlane := f.data.take (f.width * f.height)
            , uPlane := (f.data.drop (f.width * f.height)).take
                (f.width * f.height / 4)
            , vPlane := (f.data.drop (f.width * f.height +
                f.width * f.height / 4)).take (f.width * f.height / 4)
            , width := f.width, height := f.height, yStride := f.width
            , uStride := f.width / 2, vStride := f.width / 2 }
            (List.replicate (f.width * f.height * 3) 0) with
        | error e =>
          rw [hlib] at hout
          exact absurd hout (by simp)
        | ok o =>
          rw [hlib] at hout
          simp only [Except.ok.injEq] at hout
          rw [← hout]
          have := o.property
          simpa using this
  · intro st' results hok
    exact convertYuv_ok_lengths oracle st d w h rest st' results hdims hwf
      hwb hok

/-- Witness for C8, at a concrete valid 2×2 frame and 1-frame GPU batch. -/
theorem c8_ok_output_length_all_variants_witness :
    (∀ fr ∈ [((List.replicate 6 0 : List Nat), 2, 2)],
      fr.2.1 = 2 ∧ fr.2.2 = 2) ∧ 2 * 2 * 4 < 2 ^ 32 ∧
    ((∀ out, manualConvert
        ⟨0, 2, 2, [10, 20, 30, 40, 90, 200], PixelFormat.yuv420p⟩ = .ok out →
      out.length = 2 * 2 * 3) ∧
    (∀ out, ffmpegConvert (fun _ _ _ => .ok ()) (fun _ => 0)
        ⟨0, 2, 2, [10, 20, 30, 40, 90, 200], PixelFormat.yuv420p⟩ = .ok out →
      out.length = 2 * 2 * 3) ∧
    (∀ out, opencvConvert (.ok ()) 12 (fun _ => 0)
        ⟨0, 2, 2, [10, 20, 30, 40, 90, 200], PixelFormat.yuv420p⟩ = .ok out →
      out.length = 2 * 2 * 3) ∧
    (∀ out, yuvutilsConvert (fun _ buf => .ok ⟨buf, rfl⟩)
        ⟨0, 2, 2, [10, 20, 30, 40, 90, 200], PixelFormat.yuv420p⟩ = .ok out →
      out.length = 2 * 2 * 3) ∧
    (∀ st' results, convertYuv420pToRgb (fun _ _ => 0) initialGpuState
        [(List.replicate 6 0, 2, 2)] = some (st', .ok results) →
      ∀ r ∈ results, r.length = 2 * 2 * 3)) :=
  ⟨by decide, by decide,
    c8_ok_output_length_all_variants
      ⟨0, 2, 2, [10, 20, 30, 40, 90, 200], PixelFormat.yuv420p⟩
      (fun _ _ _ => .ok ()) (fun _ => 0) (.ok ()) 12 (fun _ => 0)
      (fun _ buf => .ok ⟨buf, rfl⟩) (fun _ _ => 0) initialGpuState
      (List.replicate 6 0) 2 2 [] (by decide) gpuWF_initial (by decide)⟩

/-- C9: a 4:2:0 frame (even dimensions) whose data is shorter than
`width*height*3/2` is rejected with an error by every CPU variant, and a
GPU batch containing such a frame makes `convert_yuv420p_to_rgb` return an
error — never a silently truncated or partial result.  (The GPU conjunct
assumes `max_single_batch ≥ 1`; without it the engine panics instead, see
C10.) -/
theorem c9_short_data_rejected (f : FrameData) (w' h' : Nat)
    (hfmt : f.format = PixelFormat.yuv420p)
    (hw : f.width = 2 * w') (hh : f.height = 2 * h')
    (hshort : f.data.length < f.width * f.height * 3 / 2)
    (scalerInit : PixelFormat → Nat → Nat → Except String Unit)
    (scaled : Nat → Nat)
    (cvOk : Except String Unit) (cvLen : Nat) (cv : Nat → Nat)
    (lib : YuvPlanarImage → (buf : List Nat) →
      Except String { l : List Nat // l.length = buf.length }) :
    manualConvert f = .error "Invalid YUV data size" ∧
    opencvConvert cvOk cvLen cv f = .error "Invalid YUV data size" ∧
    yuvutilsConvert lib f = .error "Invalid YUV data size" ∧
    (∃ e, ffmpegConvert scalerInit scaled f = .error e) ∧
    (∀ (oracle : DeviceOracle) (st : GpuState) (dg : List Nat)
        (restg : List GpuFrame),
      (∀ fr ∈ (dg, f.width, f.height) :: restg,
        fr.2.1 = f.width ∧ fr.2.2 = f.height) →
      GpuWF st → f.width * f.height * 4 < 2 ^ 32 →
      0 < maxSingleBatch f.width f.height →
      (∃ fr ∈ (dg, f.width, f.height) :: restg,
        fr.1.length < f.width * f.height * 3 / 2) →
      ∃ st' e, convertYuv420pToRgb oracle st
        ((dg, f.width, f.height) :: restg) = some (st', .error e)) := by
  have hthr : f.width * f.height * 3 / 2 =
      f.width * f.height + 2 * (f.width * f.height / 4) := by
    rw [hw, hh]
    have h1 : 2 * w' * (2 * h') = 4 * (w' * h') := by ring
    rw [h1]
    have h2 : 4 * (w' * h') * 3 = 2 * (6 * (w' * h')) := by ring
    rw [h2, Nat.mul_div_cancel_left _ (by norm_num : (0:Nat) < 2),
      Nat.mul_div_cancel_left _ (by norm_num : (0:Nat) < 4)]
    omega
  rw [hthr] at hshort
  refine ⟨?_, ?_, ?_, ?_, ?_⟩
  · rw [manualConvert, if_neg (by simp [hfmt]), if_pos hshort]
  · rw [opencvConvert.eq_def, if_neg (by simp [hfmt]), if_pos hshort]
  · rw [yuvutilsConvert.eq_def, if_neg (by simp [hfmt]), if_pos hshort]
  · cases hs : scalerInit f.format f.width f.height with
    | error e => exact ⟨e, by rw [ffmpegConvert.eq_def, hs]⟩
    | ok u =>
      refine ⟨"Invalid YUV420P data size", ?_⟩
      rw [ffmpegConvert.eq_def, hs]
      dsimp only
      rw [if_pos hfmt, if_pos hshort]
  · intro oracle st dg restg hdims hwfg hwbg hmg hshortg
    apply convertYuv_short_errors oracle st dg f.width f.height restg hdims
      hwfg hwbg hmg
    obtain ⟨fr, hfr, hlt⟩ := hshortg
    rw [hthr] at hlt
    exact ⟨fr, hfr, hlt⟩

/-- Witness for C9, at a concrete 2×2 frame with only 3 data bytes. -/
theorem c9_short_data_rejected_witness :
    ((PixelFormat.yuv420p = PixelFormat.yuv420p) ∧
      (3 : Nat) < 2 * 2 * 3 / 2) ∧
    (manualConvert ⟨0, 2, 2, [1, 2, 3], PixelFormat.yuv420p⟩ =
        .error "Invalid YUV data size" ∧
      opencvConvert (.ok ()) 12 (fun _ => 0)
          ⟨0, 2, 2, [1, 2, 3], PixelFormat.yuv420p⟩ =
        .error "Invalid YUV data size" ∧
      yuvutilsConvert (fun _ buf => .ok ⟨buf, rfl⟩)
          ⟨0, 2, 2, [1, 2, 3], PixelFormat.yuv420p⟩ =
        .error "Invalid YUV data size" ∧
      (∃ e, ffmpegConvert (fun _ _ _ => .ok ()) (fun _ => 0)
          ⟨0, 2, 2, [1, 2, 3], PixelFormat.yuv420p⟩ = .error e)) ∧
    (∃ st' e, convertYuv420pToRgb (fun _ _ => 0) initialGpuState
        [([1, 2, 3], 2, 2)] = some (st', .error e)) := by
  have h := c9_short_data_rejected
    ⟨0, 2, 2, [1, 2, 3], PixelFormat.yuv420p⟩ 1 1 rfl (by decide) (by decide)
    (by decide) (fun _ _ _ => .ok ()) (fun _ => 0) (.ok ()) 12 (fun _ => 0)
    (fun _ buf => .ok ⟨buf, rfl⟩)
  exact ⟨⟨rfl, by decide⟩, ⟨h.1, h.2.1, h.2.2.1, h.2.2.2.1⟩,
    h.2.2.2.2 (fun _ _ => 0) initialGpuState [1, 2, 3] [] (by decide)
      gpuWF_initial (by decide) (by decide) (by decide)⟩

/-- C3 (code bug): a failed `sender.send` breaks only the inner per-packet
frame loop (frame_extraction.rs line 144), not the outer packet loop.
With the receiver closed after one successful send (`openUntil = 1`),
`max_frames = 0`, `sample_fps = 0`, a 3 s / 1 fps video
(`final_output_frames = 3`) and three one-frame packets, the extractor
keeps decoding after the first failed send — one extraction attempt per
remaining packet — and returns `Ok` with `frames_processed = 3` even
though only one frame was emitted, instead of stopping within one decode
step and returning the emitted count. -/
theorem c3_send_failure_breaks_inner_loop_only :
    extractFramesStreaming 0 0 3 1 1 [[0], [1], [2]] =
      .ok ⟨0, 3, [(1, 0)]⟩ := by
  have hΔ : frameInterval 0 0 3 = 0 := by rw [frameInterval]; norm_num
  have hfin : finalOutputFrames 0 0 3 1 = 3 := by
    norm_num [finalOutputFrames, totalVideoFrames]
    rfl
  rw [extractFramesStreaming, if_neg (by norm_num), if_neg (by norm_num),
    hΔ, hfin]
  rfl

/-- C7: with a valid duration and frame rate and a receiver that stays
open for the whole target frame count, the extractor succeeds; the
inter-emission delta is `1 / sample_fps` when `sample_fps > 0` and
`duration / max_frames` when `sample_fps = 0 < max_frames`; with a
positive delta the emitted timestamps are exactly the running-threshold
filter of the decoded timestamps in order (a frame is emitted exactly when
its timestamp has reached the threshold, which then advances by the
delta), truncated at `final_output_frames`; and at most `max_frames`
frames are emitted when `max_frames > 0`. -/
theorem c7_sampling_cadence (maxFrames sampleFps : Nat) (duration fps : Rat)
    (openUntil : Nat) (packets : List (List Rat))
    (hdur : 0 < duration) (hfps : 0 < fps)
    (hopen : finalOutputFrames maxFrames sampleFps duration fps ≤ openUntil) :
    ∃ res, extractFramesStreaming maxFrames sampleFps duration fps openUntil
        packets = .ok res ∧
      (0 < sampleFps →
        frameInterval maxFrames sampleFps duration = 1 / (sampleFps : Rat)) ∧
      (sampleFps = 0 → 0 < maxFrames →
        frameInterval maxFrames sampleFps duration =
          duration / (maxFrames : Rat)) ∧
      (0 < frameInterval maxFrames sampleFps duration →
        res.emitted.map Prod.snd =
          specThresholdFilter (frameInterval maxFrames sampleFps duration)
            (finalOutputFrames maxFrames sampleFps duration fps) 0 0
            packets.flatten) ∧
      (0 < maxFrames → res.emitted.length ≤ maxFrames) := by
  have hinv : ChanInv openUntil
      (finalOutputFrames maxFrames sampleFps duration fps) initExtState :=
    ⟨rfl, Nat.zero_le _, hopen⟩
  refine ⟨extOuter (frameInterval maxFrames sampleFps duration)
    (finalOutputFrames maxFrames sampleFps duration fps) openUntil
    initExtState packets, ?_, ?_, ?_, ?_, ?_⟩
  · rw [extractFramesStreaming, if_neg (not_not_intro hdur),
      if_neg (not_not_intro hfps)]
  · intro h
    rw [frameInterval, if_pos h]
  · intro h0 hm
    rw [frameInterval, if_neg (by omega), if_pos hm]
  · intro hpos
    rw [extOuter_eq_inner_flatten _ _ _ _ _ hinv,
      extInner_emits_spec _ _ _ hpos _ _ hinv]
    simp [initExtState]
  · intro hm
    have h2 := extInner_inv (frameInterval maxFrames sampleFps duration)
      (finalOutputFrames maxFrames sampleFps duration fps) openUntil
      packets.flatten initExtState hinv
    rw [extOuter_eq_inner_flatten _ _ _ _ _ hinv]
    have hfo : finalOutputFrames maxFrames sampleFps duration fps =
        maxFrames := by
      rw [finalOutputFrames, if_neg (by omega)]
    obtain ⟨ha, hb, _⟩ := h2
    omega

/-- Witness for C7: max_frames = 2, sample_fps = 1, a 3 s / 1 fps video,
a receiver open for 10 sends, and decoded timestamps [0, 1/2, 1], [2]. -/
theorem c7_sampling_cadence_witness :
    ((0 : Rat) < 3 ∧ (0 : Rat) < 1 ∧ finalOutputFrames 2 1 3 1 ≤ 10) ∧
    (∃ res, extractFramesStreaming 2 1 3 1 10 [[0, 1/2, 1], [2]] =
        .ok res ∧
      (0 < 1 → frameInterval 2 1 3 = 1 / ((1 : Nat) : Rat)) ∧
      ((1 : Nat) = 0 → 0 < 2 → frameInterval 2 1 3 = 3 / ((2 : Nat) : Rat)) ∧
      (0 < frameInterval 2 1 3 →
        res.emitted.map Prod.snd =
          specThresholdFilter (frameInterval 2 1 3)
            (finalOutputFrames 2 1 3 1) 0 0 [[0, 1/2, 1], [2]].flatten) ∧
      (0 < 2 → res.emitted.length ≤ 2)) :=
  ⟨⟨by decide, by decide, by decide⟩,
    c7_sampling_cadence 2 1 3 1 10 [[0, 1/2, 1], [2]] (by decide) (by decide)
      (by decide)⟩

end SubSnap
